import Mathlib

/-!
Verification of the simorg organizational-simulation kernel and runtime.

This file gives a shallow embedding, in Lean 4, of the Rust sources under
src/org_engine_replica (domain model, arithmetic, graph utilities, invariant
checker, transition kernel, engine, canonical serializer and hasher) and the
relevant parts of src/org_runtime_rust (replay orchestrator, drift check,
proto bridge), together with theorems settling the frozen claims C1 to C10.

Modelling conventions:
- Rust i64 values are Lean Int together with explicit range checks
  (checkedAdd / checkedMul mirror arithmetic.rs and fail outside
  [-2^63, 2^63)); Rust u64/u32 are Lean Nat (claims never exercise their
  wraparound) except where a cast truncates, which is modelled with % 2^32.
- Rust panics are modelled as Except.error of a structured error code.
- BTreeMap String Role is modelled as an association list ordered by the
  map operations themselves (mapInsert keeps the list sorted by key,
  lookups take the first hit); BTreeSet String is a sorted deduplicated
  list built by setInsert.
- Rust stable sorts (Vec::sort / sort_by) are modelled by a stable
  insertion sort; a stable sort for a total preorder comparator is
  extensionally unique, so this agrees with Rust's stable mergesort.
- String order: Rust compares UTF-8 bytes; UTF-8 byte order coincides with
  code-point order, which is what charListLt compares.
-/

-- ═══════════════════════════════════════════════════════════════════
-- Part 1: primitive utilities (src/org_engine_replica/src/arithmetic.rs)
-- ═══════════════════════════════════════════════════════════════════

/-- Error codes for every panic / failure in the kernel and engine. -/
inductive KError where
  | overflow
  | invalidRoleId
  | missingField
  | roleNotFound
  | roleIdCollision
  | missingNewRoles
  | compressionTooLarge
  | negativeConstraint
  | unknownEventType
  | invariantViolation (tag : String)
  | schemaVersionMismatch
  | sequenceViolation
  | constantsNotInitialized
  | constantsAlreadyInitialized
  | engineNotInitialized
  | determinismFailure
  deriving Repr, DecidableEq

/-- Least representable i64 value. -/
def i64Min : Int := -(2 ^ 63)

/-- One past the greatest representable i64 value. -/
def i64Sup : Int := 2 ^ 63

/-- Whether an integer is representable as a Rust i64. -/
def fitsI64 (n : Int) : Bool := decide (i64Min ≤ n) && decide (n < i64Sup)

/-- Checked i64 addition: arithmetic.rs checked_add, panic modelled as error. -/
def checked_add (a b : Int) : Except KError Int :=
  if fitsI64 (a + b) then .ok (a + b) else .error .overflow

/-- Checked i64 multiplication: arithmetic.rs checked_mul. -/
def checked_mul (a b : Int) : Except KError Int :=
  if fitsI64 (a * b) then .ok (a * b) else .error .overflow

/-- Characters allowed in a role ID: ASCII alphanumerics, underscore, dash. -/
def validIdChar (c : Char) : Bool :=
  (decide ('0' ≤ c) && decide (c ≤ '9')) ||
  (decide ('a' ≤ c) && decide (c ≤ 'z')) ||
  (decide ('A' ≤ c) && decide (c ≤ 'Z')) ||
  decide (c = '_') || decide (c = '-')

/-- Boolean form of role-ID validity (non-empty, all chars valid). -/
def isValidRoleId (s : String) : Bool :=
  !s.data.isEmpty && s.data.all validIdChar

/-- arithmetic.rs validate_role_id: panic on invalid modelled as error. -/
def validate_role_id (s : String) : Except KError Unit :=
  if isValidRoleId s then .ok () else .error .invalidRoleId

/-- Fixed-point scale factor (arithmetic.rs SCALE). -/
def SCALE : Int := 10000

-- String comparison mirroring Rust's byte-lexicographic Ord on String.

/-- Lexicographic strict comparison of code-point lists. -/
def charListLt : List Char → List Char → Bool
  | [], [] => false
  | [], _ :: _ => true
  | _ :: _, [] => false
  | c :: cs, d :: ds =>
    if c.toNat < d.toNat then true
    else if d.toNat < c.toNat then false
    else charListLt cs ds

/-- Strict string order (= Rust's byte order, since UTF-8 preserves it). -/
def strLt (a b : String) : Bool := charListLt a.data b.data

/-- String order, non-strict. -/
def strLe (a b : String) : Bool := !strLt b a

/-- Stable insertion of one element into a sorted list: the new element is
placed after every existing element le-below-or-equal to it. -/
def insertStable {α : Type} (le : α → α → Bool) (x : α) : List α → List α
  | [] => [x]
  | y :: l => if le y x then y :: insertStable le x l else x :: y :: l

/-- Stable insertion sort; extensionally equal to Rust Vec::sort /
sort_by with the same comparator, since stable sorts are unique. -/
def sortStable {α : Type} (le : α → α → Bool) (l : List α) : List α :=
  l.foldl (fun acc x => insertStable le x acc) []

/-- Sort a list of strings ascending (Vec::sort on Vec of String). -/
def sortStr (l : List String) : List String := sortStable strLe l

-- BTreeSet String: sorted deduplicated list.

/-- Insert into a sorted deduplicated string list (BTreeSet insert). -/
def setInsert (x : String) : List String → List String
  | [] => [x]
  | y :: l =>
    if strLt x y then x :: y :: l
    else if x = y then y :: l
    else y :: setInsert x l

/-- Collect a list into a BTreeSet (iteration order = sorted order). -/
def setOfList (l : List String) : List String :=
  l.foldl (fun acc x => setInsert x acc) []

-- BTreeMap String α: association list kept sorted by mapInsert.

/-- Insert (or overwrite) a key in a sorted association list. -/
def mapInsert {α : Type} (k : String) (v : α) :
    List (String × α) → List (String × α)
  | [] => [(k, v)]
  | (k', v') :: rest =>
    if strLt k k' then (k, v) :: (k', v') :: rest
    else if k = k' then (k, v) :: rest
    else (k', v') :: mapInsert k v rest

/-- Lookup in an association list (first match). -/
def mapLookup {α : Type} (m : List (String × α)) (k : String) : Option α :=
  match m with
  | [] => none
  | (k', v) :: rest => if k = k' then some v else mapLookup rest k

/-- Key membership test (BTreeMap contains_key). -/
def mapContains {α : Type} (m : List (String × α)) (k : String) : Bool :=
  (mapLookup m k).isSome

/-- Remove a key from the map (BTreeMap remove; keys are unique in a
BTreeMap, so removing every occurrence is the faithful reading). -/
def mapErase {α : Type} (m : List (String × α)) (k : String) :
    List (String × α) :=
  m.filter (fun p => p.1 ≠ k)

/-- Update the value at a key in place (BTreeMap get_mut + assignment). -/
def mapAdjust {α : Type} (m : List (String × α)) (k : String) (f : α → α) :
    List (String × α) :=
  m.map (fun p => if p.1 = k then (p.1, f p.2) else p)

-- ═══════════════════════════════════════════════════════════════════
-- Part 2: JSON values (serde_json::Value as used by the kernel)
-- ═══════════════════════════════════════════════════════════════════

/-- JSON value. Numbers are integers only: the kernel forbids floats, and
every payload the codec or fixtures build carries integer numbers. Objects
keep insertion order (the engine crate uses serde_json with preserve_order). -/
inductive Json where
  | null
  | bool (b : Bool)
  | int (n : Int)
  | str (s : String)
  | arr (xs : List Json)
  | obj (fields : List (String × Json))
  deriving Repr

/-- Value::get on an object: some iff the receiver is an object holding
the key (first occurrence). -/
def jGet : Json → String → Option Json
  | .obj fields, k =>
    match fields.find? (fun p => p.1 = k) with
    | some p => some p.2
    | none => none
  | _, _ => none

/-- Value index (v[key]): missing key or non-object gives Null. -/
def jIndex (v : Json) (k : String) : Json :=
  match jGet v k with
  | some w => w
  | none => .null

/-- Value::as_str. -/
def jAsStr : Json → Option String
  | .str s => some s
  | _ => none

/-- Value::as_i64: some iff the number fits in i64. -/
def jAsI64 : Json → Option Int
  | .int n => if fitsI64 n then some n else none
  | _ => none

/-- Value::as_u64: some iff the number is a non-negative integer below 2^64. -/
def jAsU64 : Json → Option Nat
  | .int n => if 0 ≤ n ∧ n < 2 ^ 64 then some n.toNat else none
  | _ => none

/-- Value::as_array. -/
def jAsArr : Json → Option (List Json)
  | .arr xs => some xs
  | _ => none

/-- Value::as_bool. -/
def jAsBool : Json → Option Bool
  | .bool b => some b
  | _ => none

/-- Whether the value is an array (Value::is_array). -/
def jIsArr : Json → Bool
  | .arr _ => true
  | _ => false

/-- transitions.rs json_str_array: read an array of strings, dropping
non-string entries; missing or non-array keys give the empty list. -/
def json_str_array (v : Json) (key : String) : List String :=
  match jGet v key with
  | some w =>
    match jAsArr w with
    | some xs => xs.filterMap jAsStr
    | none => []
  | none => []

/-- transitions.rs json_i64: integer field with default 0. -/
def json_i64 (v : Json) (key : String) : Int :=
  match jGet v key with
  | some w => (jAsI64 w).getD 0
  | none => 0

-- ═══════════════════════════════════════════════════════════════════
-- Part 3: domain types (src/org_engine_replica/src/domain.rs, events.rs)
-- ═══════════════════════════════════════════════════════════════════

/-- domain.rs Role. -/
structure Role where
  id : String
  name : String
  purpose : String
  responsibilities : List String
  required_inputs : List String
  produced_outputs : List String
  scale_stage : String
  active : Bool
  deriving Repr

/-- domain.rs DependencyEdge. -/
structure DependencyEdge where
  from_role_id : String
  to_role_id : String
  dependency_type : String
  critical : Bool
  deriving Repr, DecidableEq

/-- domain.rs ConstraintVector (i64 fixed-point components). -/
structure ConstraintVector where
  capital : Int
  talent : Int
  time : Int
  political_cost : Int
  deriving Repr, DecidableEq

/-- Default ConstraintVector: 50000 everywhere. -/
def ConstraintVector.default : ConstraintVector :=
  { capital := 50000, talent := 50000, time := 50000, political_cost := 50000 }

/-- domain.rs organizational_capacity_index: checked sum divided by 4
(Rust i64 division truncates, hence Int.tdiv). -/
def ConstraintVector.organizational_capacity_index (cv : ConstraintVector) :
    Except KError Int := do
  let ab ← checked_add cv.capital cv.talent
  let cd ← checked_add cv.time cv.political_cost
  let total ← checked_add ab cd
  return total.tdiv 4

/-- domain.rs DomainConstants. -/
structure DomainConstants where
  differentiation_threshold : Int
  differentiation_min_capacity : Int
  compression_max_combined_responsibilities : Int
  shock_deactivation_threshold : Int
  shock_debt_base_multiplier : Int
  suppressed_differentiation_debt_increment : Int
  deriving Repr, DecidableEq

/-- Default DomainConstants (domain.rs impl Default). -/
def DomainConstants.default : DomainConstants :=
  { differentiation_threshold := 3
    differentiation_min_capacity := 60000
    compression_max_combined_responsibilities := 5
    shock_deactivation_threshold := 8
    shock_debt_base_multiplier := 1
    suppressed_differentiation_debt_increment := 1 }

/-- domain.rs TransitionResult. -/
structure TransitionResult where
  event_type : String
  success : Bool
  differentiation_executed : Bool
  suppressed_differentiation : Bool
  differentiation_skipped : Bool
  compression_executed : Bool
  deactivated : Bool
  reason : String
  primary_debt : Int
  secondary_debt : Int
  target_density : Int
  shock_target : String
  magnitude : Int
  deriving Repr

/-- Default TransitionResult (domain.rs impl Default). -/
def TransitionResult.default : TransitionResult :=
  { event_type := "", success := true, differentiation_executed := false
    suppressed_differentiation := false, differentiation_skipped := false
    compression_executed := false, deactivated := false, reason := ""
    primary_debt := 0, secondary_debt := 0, target_density := 0
    shock_target := "", magnitude := 0 }

/-- domain.rs OrgState. -/
structure OrgState where
  roles : List (String × Role)
  dependencies : List DependencyEdge
  constraint_vector : ConstraintVector
  constants : DomainConstants
  scale_stage : String
  structural_debt : Int
  event_history : List Json
  deriving Repr

/-- events.rs SCHEMA_VERSION. -/
def SCHEMA_VERSION : Nat := 1

/-- lib.rs KERNEL_VERSION. -/
def KERNEL_VERSION : Nat := 1

/-- events.rs EventEnvelope. -/
structure EventEnvelope where
  event_type : String
  sequence : Nat
  timestamp : String
  logical_time : Nat
  payload : Json
  schema_version : Nat
  deriving Repr

/-- events.rs EventEnvelope::to_dict (field order as in the json! call). -/
def EventEnvelope.to_dict (e : EventEnvelope) : Json :=
  .obj [("event_type", .str e.event_type),
        ("timestamp", .str e.timestamp),
        ("sequence", .int e.sequence),
        ("logical_time", .int e.logical_time),
        ("payload", e.payload)]

/-- state.rs create_initial_state with all-None arguments (the only call
the engine makes). -/
def create_initial_state : OrgState :=
  { roles := []
    dependencies := []
    constraint_vector := ConstraintVector.default
    constants := DomainConstants.default
    scale_stage := "seed"
    structural_debt := 0
    event_history := [] }

-- ═══════════════════════════════════════════════════════════════════
-- Part 4: graph utilities (src/org_engine_replica/src/graph.rs)
-- ═══════════════════════════════════════════════════════════════════

/-- graph.rs compute_role_structural_density: local density
(incident_edges * SCALE) / total_edges, 0 when there are no edges. -/
def compute_role_structural_density (role_id : String) (s : OrgState) :
    Except KError Int :=
  if s.dependencies.isEmpty then .ok 0
  else
    let count : Int :=
      (s.dependencies.filter
        (fun d => d.from_role_id = role_id || d.to_role_id = role_id)).length
    let total : Int := s.dependencies.length
    if total = 0 then .ok 0
    else do
      let num ← checked_mul count SCALE
      return num.tdiv total

/-- Per-node critical adjacency: targets of critical edges leaving the
node, collected in dependency order and then sorted (graph.rs builds the
same lists with entry().push() followed by per-list sort; lookup of an
absent node gives the empty slice). -/
def adjGet (deps : List DependencyEdge) (node : String) : List String :=
  sortStr ((deps.filter
    (fun e => e.critical && e.from_role_id = node)).map
      (fun e => e.to_role_id))

/-- All targets of critical edges: a finite universe containing every
node the DFS can ever push (used only for the termination measure). -/
def critTargets (deps : List DependencyEdge) : List String :=
  (deps.filter (fun e => e.critical)).map (fun e => e.to_role_id)

/-- Colour map of the DFS: association list, latest entry wins, absent
nodes are WHITE (0). GREY = 1, BLACK = 2. -/
abbrev ColMap := List (String × Nat)

/-- Colour of a node (unwrap_or WHITE). -/
def colGet (col : ColMap) (n : String) : Nat :=
  ((col.find? (fun p => p.1 = n)).map Prod.snd).getD 0

/-- Overwrite a node's colour. -/
def colSet (col : ColMap) (n : String) (c : Nat) : ColMap := (n, c) :: col

/-- Cycle reconstruction: walk the stack from the top down to the first
occurrence of the grey neighbour, inclusive (graph.rs cycle rebuild). -/
def takeToNbr (nbr : String) : List (String × Nat) → List String
  | [] => []
  | (n, _) :: rest => if n = nbr then [n] else n :: takeToNbr nbr rest

/-- Number of still-white nodes in the pushable universe (termination
measure component). -/
def whiteCount (deps : List DependencyEdge) (col : ColMap) : Nat :=
  (critTargets deps).countP (fun n => colGet col n == 0)

/-- Remaining scan work on the stack plus stack size (termination
measure component). -/
def stackWeight (deps : List DependencyEdge) : List (String × Nat) → Nat
  | [] => 0
  | (n, k) :: rest => ((adjGet deps n).length - k) + 1 + stackWeight deps rest

/-- Fuel budget for the DFS loop: strictly decreases at every iteration,
so a run started with this much fuel never hits the fuel sentinel. -/
def dfsFuel (deps : List DependencyEdge) (col : ColMap)
    (stack : List (String × Nat)) : Nat :=
  whiteCount deps col * (deps.length + 2) + stackWeight deps stack

/-- graph.rs detect_critical_cycles inner while-loop, expressed with a
fuel counter (theorem dfsLoopF_stable shows the sentinel is unreachable
from a dfsFuel budget, so this is the Rust loop). The stack is held
head-first (head = Rust Vec's last element). Each iteration scans the
next neighbour of the top entry (advancing its index), reporting a cycle
on a grey neighbour, pushing a white neighbour, skipping a black one, and
pops (blackening) the top entry once its neighbours are exhausted. -/
def dfsLoopF (deps : List DependencyEdge) :
    Nat → ColMap → List (String × Nat) → List (List String) →
    ColMap × List (List String)
  | _, col, [], cycles => (col, cycles)
  | 0, col, _ :: _, cycles => (col, cycles)
  | fuel + 1, col, (node, idx) :: rest, cycles =>
    if h : idx < (adjGet deps node).length then
      if colGet col ((adjGet deps node).get ⟨idx, h⟩) = 1 then
        dfsLoopF deps fuel col ((node, idx+1) :: rest)
          (cycles ++ [(adjGet deps node).get ⟨idx, h⟩ ::
            takeToNbr ((adjGet deps node).get ⟨idx, h⟩) ((node, idx+1) :: rest)])
      else if colGet col ((adjGet deps node).get ⟨idx, h⟩) = 0 then
        dfsLoopF deps fuel (colSet col ((adjGet deps node).get ⟨idx, h⟩) 1)
          (((adjGet deps node).get ⟨idx, h⟩, 0) :: (node, idx+1) :: rest) cycles
      else
        dfsLoopF deps fuel col ((node, idx+1) :: rest) cycles
    else
      dfsLoopF deps fuel (colSet col node 2) rest cycles

/-- The DFS loop run with its own fuel budget. -/
def dfsLoop (deps : List DependencyEdge) (col : ColMap)
    (stack : List (String × Nat)) (cycles : List (List String)) :
    ColMap × List (List String) :=
  dfsLoopF deps (dfsFuel deps col stack) col stack cycles

/-- One iteration of the outer start loop of detect_critical_cycles:
skip non-white starts, otherwise push the start grey and run the DFS. -/
def dfsStart (deps : List DependencyEdge) (acc : ColMap × List (List String))
    (start : String) : ColMap × List (List String) :=
  if colGet acc.1 start ≠ 0 then acc
  else dfsLoop deps (colSet acc.1 start 1) [(start, 0)] acc.2

/-- graph.rs detect_critical_cycles: sorted-start iterative DFS. The
roles map iterates in key order; white starts are pushed grey and the
loop is run; the accumulated cycle list is returned. -/
def detect_critical_cycles (s : OrgState) : List (List String) :=
  ((s.roles.map Prod.fst).foldl (dfsStart s.dependencies)
    (([] : ColMap), ([] : List (List String)))).2

-- ═══════════════════════════════════════════════════════════════════
-- Part 5: invariant checker (src/org_engine_replica/src/invariants.rs)
-- ═══════════════════════════════════════════════════════════════════

/-- INV-7 check: every role id non-empty and [a-zA-Z0-9_-]+ only. -/
def check_role_id_format (s : OrgState) : Except KError Unit :=
  if s.roles.all (fun p => isValidRoleId p.1) then .ok ()
  else .error (.invariantViolation "role_id_format")

/-- INV-1 check: both endpoints of every dependency exist in roles. -/
def check_dependency_refs (s : OrgState) : Except KError Unit :=
  if s.dependencies.all
      (fun d => mapContains s.roles d.from_role_id &&
                mapContains s.roles d.to_role_id) then .ok ()
  else .error (.invariantViolation "dependency_refs")

/-- The BTreeSet of every role's required inputs (invariants.rs builds
all_inputs by iterating roles in key order). -/
def allInputsSet (s : OrgState) : List String :=
  setOfList (s.roles.flatMap (fun p => p.2.required_inputs))

/-- INV-2 check: every produced output is some role's required input. -/
def check_orphaned_outputs (s : OrgState) : Except KError Unit :=
  if s.roles.all
      (fun p => p.2.produced_outputs.all (fun out => (allInputsSet s).contains out))
  then .ok ()
  else .error (.invariantViolation "orphaned_output")

/-- INV-3 check: list of ids has as many entries as its deduplicated set. -/
def check_duplicate_role_ids (s : OrgState) : Except KError Unit :=
  if (setOfList (s.roles.map Prod.fst)).length = (s.roles.map Prod.fst).length
  then .ok ()
  else .error (.invariantViolation "duplicate_role_ids")

/-- INV-4 check: some role is active whenever any role exists. -/
def check_at_least_one_active_role (s : OrgState) : Except KError Unit :=
  if s.roles.isEmpty then .ok ()
  else if s.roles.any (fun p => p.2.active) then .ok ()
  else .error (.invariantViolation "no_active_roles")

/-- INV-5 check: no role has an empty responsibility list. -/
def check_no_empty_responsibilities (s : OrgState) : Except KError Unit :=
  if s.roles.all (fun p => !p.2.responsibilities.isEmpty) then .ok ()
  else .error (.invariantViolation "empty_responsibilities")

/-- INV-6 check: the critical-cycle detector reports nothing. -/
def check_no_critical_cycles (s : OrgState) : Except KError Unit :=
  if (detect_critical_cycles s).isEmpty then .ok ()
  else .error (.invariantViolation "critical_cycle")

/-- invariants.rs validate_invariants: the seven checks in fixed order,
first failure wins. -/
def validate_invariants (s : OrgState) : Except KError Unit := do
  check_role_id_format s
  check_dependency_refs s
  check_orphaned_outputs s
  check_duplicate_role_ids s
  check_at_least_one_active_role s
  check_no_empty_responsibilities s
  check_no_critical_cycles s

-- ═══════════════════════════════════════════════════════════════════
-- Part 6: transition kernel (src/org_engine_replica/src/transitions.rs)
-- ═══════════════════════════════════════════════════════════════════

/-- transitions.rs apply_initialize_constants: overwrite constants with
payload fields, defaulting each omitted key to its prior value. -/
def apply_initialize_constants (s : OrgState) (event : EventEnvelope) :
    Except KError (OrgState × TransitionResult) :=
  let p := event.payload
  let old := s.constants
  let getI : String → Int → Int := fun key dflt => ((jGet p key).bind jAsI64).getD dflt
  .ok ({ s with constants :=
    { differentiation_threshold :=
        getI "differentiation_threshold" old.differentiation_threshold
      differentiation_min_capacity :=
        getI "differentiation_min_capacity" old.differentiation_min_capacity
      compression_max_combined_responsibilities :=
        getI "compression_max_combined_responsibilities"
          old.compression_max_combined_responsibilities
      shock_deactivation_threshold :=
        getI "shock_deactivation_threshold" old.shock_deactivation_threshold
      shock_debt_base_multiplier :=
        getI "shock_debt_base_multiplier" old.shock_debt_base_multiplier
      suppressed_differentiation_debt_increment :=
        getI "suppressed_differentiation_debt_increment"
          old.suppressed_differentiation_debt_increment } },
   { TransitionResult.default with event_type := "initialize_constants" })

/-- transitions.rs apply_add_role. -/
def apply_add_role (s : OrgState) (event : EventEnvelope) :
    Except KError (OrgState × TransitionResult) := do
  let p := event.payload
  let some role_id := jAsStr (jIndex p "id") | .error .missingField
  validate_role_id role_id
  if mapContains s.roles role_id then .error .roleIdCollision
  else
    let responsibilities := sortStr (json_str_array p "responsibilities")
    let required_inputs := sortStr (json_str_array p "required_inputs")
    let produced_outputs := sortStr (json_str_array p "produced_outputs")
    let scale_stage := ((jGet p "scale_stage").bind jAsStr).getD s.scale_stage
    let some name := jAsStr (jIndex p "name") | .error .missingField
    let some purpose := jAsStr (jIndex p "purpose") | .error .missingField
    let role : Role :=
      { id := role_id, name := name, purpose := purpose
        responsibilities := responsibilities
        required_inputs := required_inputs
        produced_outputs := produced_outputs
        scale_stage := scale_stage, active := true }
    return ({ s with roles := mapInsert role.id role s.roles },
      { TransitionResult.default with event_type := "add_role" })

/-- transitions.rs apply_remove_role: drop the role and every edge
referencing it as either endpoint. -/
def apply_remove_role (s : OrgState) (event : EventEnvelope) :
    Except KError (OrgState × TransitionResult) := do
  let some role_id := jAsStr (jIndex event.payload "role_id") | .error .missingField
  if !mapContains s.roles role_id then .error .roleNotFound
  else
    return ({ s with
        roles := mapErase s.roles role_id
        dependencies := s.dependencies.filter
          (fun d => d.from_role_id != role_id && d.to_role_id != role_id) },
      { TransitionResult.default with event_type := "remove_role" })

/-- Construction of one sub-role during differentiation: id validated,
list fields sorted, required_inputs defaulting to the parent's when the
key is absent or not an array, purpose defaulting to the parent's,
scale_stage inherited from the parent, active set true. -/
def buildSubRole (parent : Role) (nr : Json) : Except KError Role := do
  let some sub_id := jAsStr (jIndex nr "id") | .error .missingField
  validate_role_id sub_id
  let responsibilities := sortStr (json_str_array nr "responsibilities")
  let required_inputs :=
    if (jGet nr "required_inputs").isSome && jIsArr (jIndex nr "required_inputs")
    then json_str_array nr "required_inputs"
    else parent.required_inputs
  let required_inputs := sortStr required_inputs
  let produced_outputs := sortStr (json_str_array nr "produced_outputs")
  let some name := jAsStr (jIndex nr "name") | .error .missingField
  let purpose := ((jGet nr "purpose").bind jAsStr).getD parent.purpose
  return { id := sub_id, name := name, purpose := purpose
           responsibilities := responsibilities
           required_inputs := required_inputs
           produced_outputs := produced_outputs
           scale_stage := parent.scale_stage, active := true }

/-- Insertion loop of the differentiation executed branch: sub-roles are
inserted in list order (later duplicates overwrite earlier ones). -/
def insertSubRoles (parent : Role) :
    List Json → List (String × Role) → Except KError (List (String × Role))
  | [], m => .ok m
  | nr :: rest, m => do
    let sub ← buildSubRole parent nr
    insertSubRoles parent rest (mapInsert sub.id sub m)

/-- transitions.rs apply_differentiate_role: three ordered outcomes. -/
def apply_differentiate_role (s : OrgState) (event : EventEnvelope) :
    Except KError (OrgState × TransitionResult) := do
  let p := event.payload
  let some role_id := jAsStr (jIndex p "role_id") | .error .missingField
  let some role := mapLookup s.roles role_id | .error .roleNotFound
  let c := s.constants
  if (role.responsibilities.length : Int) > c.differentiation_threshold then
    let capacity ← s.constraint_vector.organizational_capacity_index
    if capacity ≥ c.differentiation_min_capacity then
      match (jGet p "new_roles").bind jAsArr with
      | none => .error .missingNewRoles
      | some new_roles_data =>
        if new_roles_data.isEmpty then .error .missingNewRoles
        else do
          let roles2 ← insertSubRoles role new_roles_data (mapErase s.roles role_id)
          return ({ s with roles := roles2 },
            { TransitionResult.default with
                event_type := "differentiate_role"
                differentiation_executed := true })
    else do
      let newDebt ← checked_add s.structural_debt
        c.suppressed_differentiation_debt_increment
      return ({ s with structural_debt := newDebt },
        { TransitionResult.default with
            event_type := "differentiate_role"
            suppressed_differentiation := true
            reason := "capacity=" ++ toString capacity ++
              " < differentiation_min_capacity=" ++
              toString c.differentiation_min_capacity })
  else
    return (s,
      { TransitionResult.default with
          event_type := "differentiate_role"
          differentiation_skipped := true
          reason := "responsibilities=" ++ toString role.responsibilities.length ++
            " <= differentiation_threshold=" ++
            toString c.differentiation_threshold })

/-- transitions.rs apply_compress_roles. -/
def apply_compress_roles (s : OrgState) (event : EventEnvelope) :
    Except KError (OrgState × TransitionResult) := do
  let p := event.payload
  let some src_id := jAsStr (jIndex p "source_role_id") | .error .missingField
  let some tgt_id := jAsStr (jIndex p "target_role_id") | .error .missingField
  let some src := mapLookup s.roles src_id | .error .roleNotFound
  let some tgt := mapLookup s.roles tgt_id | .error .roleNotFound
  let c := s.constants
  let combined := setOfList (tgt.responsibilities ++ src.responsibilities)
  if (combined.length : Int) > c.compression_max_combined_responsibilities then
    .error .compressionTooLarge
  else
    let newName := ((jGet p "compressed_name").bind jAsStr).getD tgt.name
    let newPurpose := ((jGet p "compressed_purpose").bind jAsStr).getD tgt.purpose
    let newInputs := setOfList (tgt.required_inputs ++ src.required_inputs)
    let newOutputs := setOfList (tgt.produced_outputs ++ src.produced_outputs)
    let roles1 := mapAdjust s.roles tgt_id (fun t =>
      { t with name := newName, purpose := newPurpose
               responsibilities := combined
               required_inputs := newInputs
               produced_outputs := newOutputs })
    let roles2 := mapErase roles1 src_id
    let deps1 := s.dependencies.map (fun d =>
      let d1 := if d.from_role_id = src_id then { d with from_role_id := tgt_id } else d
      if d1.to_role_id = src_id then { d1 with to_role_id := tgt_id } else d1)
    let deps2 := deps1.filter (fun d => d.from_role_id != d.to_role_id)
    return ({ s with roles := roles2, dependencies := deps2 },
      { TransitionResult.default with
          event_type := "compress_roles", compression_executed := true })

/-- transitions.rs apply_constraint_change: four checked additions, then
a combined negativity check. -/
def apply_constraint_change (s : OrgState) (event : EventEnvelope) :
    Except KError (OrgState × TransitionResult) := do
  let p := event.payload
  let cv := s.constraint_vector
  let capital ← checked_add cv.capital (json_i64 p "capital_delta")
  let talent ← checked_add cv.talent (json_i64 p "talent_delta")
  let time ← checked_add cv.time (json_i64 p "time_delta")
  let political_cost ← checked_add cv.political_cost (json_i64 p "political_cost_delta")
  if capital < 0 ∨ talent < 0 ∨ time < 0 ∨ political_cost < 0 then
    .error .negativeConstraint
  else
    return ({ s with constraint_vector :=
        { capital := capital, talent := talent, time := time
          political_cost := political_cost } },
      { TransitionResult.default with event_type := "apply_constraint_change" })

/-- The deduplicated neighbours of the shock target (BTreeSet iteration
order = sorted): for each edge touching the target, the other endpoint
(for a self-loop, the target itself, as in the Rust if/else-if). -/
def connectedIds (deps : List DependencyEdge) (target : String) : List String :=
  deps.foldl (fun acc dep =>
    if dep.from_role_id = target then setInsert dep.to_role_id acc
    else if dep.to_role_id = target then setInsert dep.from_role_id acc
    else acc) []

/-- Secondary-debt accumulation loop of inject_shock: for each connected
id still present in roles, add max(1, magnitude * density). -/
def secondaryFold (roles : List (String × Role)) (orig : OrgState)
    (magnitude : Int) : List String → Int → Except KError Int
  | [], acc => .ok acc
  | cid :: rest, acc =>
    if mapContains roles cid then do
      let d ← compute_role_structural_density cid orig
      let inc ← checked_mul magnitude d
      let acc2 ← checked_add acc (max inc 1)
      secondaryFold roles orig magnitude rest acc2
    else secondaryFold roles orig magnitude rest acc

/-- transitions.rs apply_inject_shock. Densities are computed against
the original (pre-event) state, which for the pure kernel equals the
input state. -/
def apply_inject_shock (s : OrgState) (event : EventEnvelope) :
    Except KError (OrgState × TransitionResult) := do
  let p := event.payload
  let some target_id := jAsStr (jIndex p "target_role_id") | .error .missingField
  let some magnitude := jAsI64 (jIndex p "magnitude") | .error .missingField
  if !mapContains s.roles target_id then .error .roleNotFound
  else
    let c := s.constants
    let target_density ← compute_role_structural_density target_id s
    let base ← checked_add c.shock_debt_base_multiplier target_density
    let pd0 ← checked_mul magnitude base
    let primary_debt := max pd0 1
    let debt1 ← checked_add s.structural_debt primary_debt
    let deactivated := magnitude > c.shock_deactivation_threshold
    let roles1 :=
      if deactivated
      then mapAdjust s.roles target_id (fun r => { r with active := false })
      else s.roles
    let secondary_debt ← secondaryFold roles1 s magnitude
      (connectedIds s.dependencies target_id) 0
    let debt2 ← checked_add debt1 secondary_debt
    return ({ s with roles := roles1, structural_debt := debt2 },
      { TransitionResult.default with
          event_type := "inject_shock"
          success := true
          deactivated := decide deactivated
          shock_target := target_id
          magnitude := magnitude
          primary_debt := primary_debt
          secondary_debt := secondary_debt
          target_density := target_density })

/-- transitions.rs apply_event: dispatch on event_type, then append the
event dict to the history of the successor state. -/
def transitions_apply_event (s : OrgState) (event : EventEnvelope) :
    Except KError (OrgState × TransitionResult) := do
  let (ns, result) ←
    (match event.event_type with
     | "initialize_constants" => apply_initialize_constants s event
     | "add_role" => apply_add_role s event
     | "remove_role" => apply_remove_role s event
     | "differentiate_role" => apply_differentiate_role s event
     | "compress_roles" => apply_compress_roles s event
     | "apply_constraint_change" => apply_constraint_change s event
     | "inject_shock" => apply_inject_shock s event
     | _ => .error .unknownEventType)
  return ({ ns with event_history := ns.event_history ++ [event.to_dict] }, result)

-- ═══════════════════════════════════════════════════════════════════
-- Part 7: engine and replay (engine.rs, runtime replay.rs, drift.rs)
-- ═══════════════════════════════════════════════════════════════════

/-- engine.rs OrgEngine fields. -/
structure OrgEngine where
  state : Option OrgState
  last_sequence : Nat
  constants_initialized : Bool
  deriving Repr

/-- A freshly created engine after initialize_state(). -/
def OrgEngine.initial : OrgEngine :=
  { state := some create_initial_state
    last_sequence := 0
    constants_initialized := false }

/-- engine.rs apply_event: schema gate, sequence gate, constants-first
gate, transition, hard invariant validation, commit. The returned engine
carries the field mutations that survive a panic (the constants flag is
raised before the transition runs); state and last_sequence are only
assigned on the fully successful path. -/
def OrgEngine.apply_event (e : OrgEngine) (event : EventEnvelope) :
    OrgEngine × Except KError TransitionResult :=
  if event.schema_version ≠ SCHEMA_VERSION then
    (e, .error .schemaVersionMismatch)
  else if event.sequence ≠ e.last_sequence + 1 then
    (e, .error .sequenceViolation)
  else if ¬ e.constants_initialized ∧ event.event_type ≠ "initialize_constants" then
    (e, .error .constantsNotInitialized)
  else if e.constants_initialized ∧ event.event_type = "initialize_constants" then
    (e, .error .constantsAlreadyInitialized)
  else
    let e1 := { e with constants_initialized := true }
    match e.state with
    | none => (e1, .error .engineNotInitialized)
    | some cur =>
      match transitions_apply_event cur event with
      | .error err => (e1, .error err)
      | .ok (ns, result) =>
        match validate_invariants ns with
        | .error err => (e1, .error err)
        | .ok () =>
          ({ e1 with state := some ns, last_sequence := event.sequence },
           .ok result)

/-- The engine's apply loop (engine.rs apply_sequence / replay body; a
panic on any event aborts the whole run). -/
def applyAll : OrgEngine → List EventEnvelope → Except KError OrgEngine
  | e, [] => .ok e
  | e, evt :: rest =>
    match e.apply_event evt with
    | (e2, .ok _) => applyAll e2 rest
    | (_, .error err) => .error err

/-- A state is reachable when some event list drives a fresh initialized
engine to it with every event applied successfully. -/
def ReachableState (s : OrgState) : Prop :=
  ∃ (events : List EventEnvelope) (eng : OrgEngine),
    applyAll OrgEngine.initial events = .ok eng ∧ eng.state = some s

-- ═══════════════════════════════════════════════════════════════════
-- Part 8: canonical serializer and hasher (hashing.rs), replay (replay.rs)
-- ═══════════════════════════════════════════════════════════════════

/-- JSON string escaping as serde_json renders it: quote and backslash
escaped, control characters via the short escapes or lowercase \u00XX. -/
def escapeChar (c : Char) : String :=
  if c = '\"' then "\\\""
  else if c = '\\' then "\\\\"
  else if c = '\x08' then "\\b"
  else if c = '\x09' then "\\t"
  else if c = '\x0a' then "\\n"
  else if c = '\x0c' then "\\f"
  else if c = '\x0d' then "\\r"
  else if c.toNat < 0x20 then
    "\\u00" ++ String.mk [Nat.digitChar (c.toNat / 16), Nat.digitChar (c.toNat % 16)]
  else String.singleton c

/-- Escape a whole string for JSON output. -/
def jsonEscape (s : String) : String := String.join (s.data.map escapeChar)

/-- Rendered JSON string literal. -/
def jsonStrLit (s : String) : String := "\"" ++ jsonEscape s ++ "\""

/-- Rendered JSON array of strings. -/
def jsonStrList (l : List String) : String :=
  "[" ++ String.intercalate "," (l.map jsonStrLit) ++ "]"

/-- Rendered JSON boolean. -/
def jsonBoolLit (b : Bool) : String := if b then "true" else "false"

/-- One role in canonical form: field order id, name, purpose,
responsibilities, required_inputs, produced_outputs, scale_stage, active;
the three sequence fields sorted (hashing.rs build_canonical_value). -/
def renderRole (r : Role) : String :=
  "\x7b\"id\":" ++ jsonStrLit r.id ++
  ",\"name\":" ++ jsonStrLit r.name ++
  ",\"purpose\":" ++ jsonStrLit r.purpose ++
  ",\"responsibilities\":" ++ jsonStrList (sortStr r.responsibilities) ++
  ",\"required_inputs\":" ++ jsonStrList (sortStr r.required_inputs) ++
  ",\"produced_outputs\":" ++ jsonStrList (sortStr r.produced_outputs) ++
  ",\"scale_stage\":" ++ jsonStrLit r.scale_stage ++
  ",\"active\":" ++ jsonBoolLit r.active ++ "\x7d"

/-- Comparator for the canonical dependency sort:
(from_role_id, to_role_id, dependency_type) lexicographically. -/
def depLe (a b : DependencyEdge) : Bool :=
  if strLt a.from_role_id b.from_role_id then true
  else if strLt b.from_role_id a.from_role_id then false
  else if strLt a.to_role_id b.to_role_id then true
  else if strLt b.to_role_id a.to_role_id then false
  else strLe a.dependency_type b.dependency_type

/-- One dependency in canonical form. -/
def renderDep (d : DependencyEdge) : String :=
  "\x7b\"from_role_id\":" ++ jsonStrLit d.from_role_id ++
  ",\"to_role_id\":" ++ jsonStrLit d.to_role_id ++
  ",\"dependency_type\":" ++ jsonStrLit d.dependency_type ++
  ",\"critical\":" ++ jsonBoolLit d.critical ++ "\x7d"

/-- hashing.rs canonical_serialize composed with serde_json::to_string:
compact UTF-8 JSON, field order kernel_version, roles (in key order),
dependencies (sorted by from/to/type), constraint_vector, structural_debt,
scale_stage; event_history and constants excluded. The result is a Lean
String; its UTF-8 bytes are the Rust byte vector. -/
def canonical_serialize (s : OrgState) : String :=
  "\x7b\"kernel_version\":" ++ toString KERNEL_VERSION ++
  ",\"roles\":[" ++
    String.intercalate "," (s.roles.map (fun p => renderRole p.2)) ++ "]" ++
  ",\"dependencies\":[" ++
    String.intercalate "," ((sortStable depLe s.dependencies).map renderDep) ++ "]" ++
  ",\"constraint_vector\":\x7b\"capital\":" ++ toString s.constraint_vector.capital ++
  ",\"talent\":" ++ toString s.constraint_vector.talent ++
  ",\"time\":" ++ toString s.constraint_vector.time ++
  ",\"political_cost\":" ++ toString s.constraint_vector.political_cost ++ "\x7d" ++
  ",\"structural_debt\":" ++ toString s.structural_debt ++
  ",\"scale_stage\":" ++ jsonStrLit s.scale_stage ++ "\x7d"

-- SHA-256 over byte lists (sha2 crate behaviour), word arithmetic on
-- Nat reduced mod 2^32.

/-- Truncate to a 32-bit word. -/
def w32 (n : Nat) : Nat := n % 4294967296

/-- Rotate a 32-bit word right by k. -/
def rotr32 (k n : Nat) : Nat := w32 ((n >>> k) ||| (n <<< (32 - k)))

/-- SHA-256 Ch function. -/
def shaCh (x y z : Nat) : Nat := (x &&& y) ^^^ ((x ^^^ 4294967295) &&& z)

/-- SHA-256 Maj function. -/
def shaMaj (x y z : Nat) : Nat := (x &&& y) ^^^ (x &&& z) ^^^ (y &&& z)

/-- SHA-256 big sigma 0. -/
def bSig0 (x : Nat) : Nat := rotr32 2 x ^^^ rotr32 13 x ^^^ rotr32 22 x

/-- SHA-256 big sigma 1. -/
def bSig1 (x : Nat) : Nat := rotr32 6 x ^^^ rotr32 11 x ^^^ rotr32 25 x

/-- SHA-256 small sigma 0. -/
def sSig0 (x : Nat) : Nat := rotr32 7 x ^^^ rotr32 18 x ^^^ (x >>> 3)

/-- SHA-256 small sigma 1. -/
def sSig1 (x : Nat) : Nat := rotr32 17 x ^^^ rotr32 19 x ^^^ (x >>> 10)

/-- SHA-256 round constants. -/
def sha256K : List Nat :=
  [1116352408, 1899447441, 3049323471, 3921009573,
   961987163, 1508970993, 2453635748, 2870763221,
   3624381080, 310598401, 607225278, 1426881987,
   1925078388, 2162078206, 2614888103, 3248222580,
   3835390401, 4022224774, 264347078, 604807628,
   770255983, 1249150122, 1555081692, 1996064986,
   2554220882, 2821834349, 2952996808, 3210313671,
   3336571891, 3584528711, 113926993, 338241895,
   666307205, 773529912, 1294757372, 1396182291,
   1695183700, 1986661051, 2177026350, 2456956037,
   2730485921, 2820302411, 3259730800, 3345764771,
   3516065817, 3600352804, 4094571909, 275423344,
   430227734, 506948616, 659060556, 883997877,
   958139571, 1322822218, 1537002063, 1747873779,
   1955562222, 2024104815, 2227730452, 2361852424,
   2428436474, 2756734187, 3204031479, 3329325298]

/-- SHA-256 working registers. -/
structure Sha8 where
  a : Nat
  b : Nat
  c : Nat
  d : Nat
  e : Nat
  f : Nat
  g : Nat
  h : Nat
  deriving Repr

/-- SHA-256 initial hash value. -/
def sha256Init : Sha8 :=
  { a := 1779033703, b := 3144134277, c := 1013904242, d := 2773480762
    e := 1359893119, f := 2600822924, g := 528734635, h := 1541459225 }

/-- One SHA-256 compression round. -/
def compressStep (st : Sha8) (k w : Nat) : Sha8 :=
  let t1 := w32 (st.h + bSig1 st.e + shaCh st.e st.f st.g + k + w)
  let t2 := w32 (bSig0 st.a + shaMaj st.a st.b st.c)
  { a := w32 (t1 + t2), b := st.a, c := st.b, d := st.c
    e := w32 (st.d + t1), f := st.e, g := st.f, h := st.g }

/-- Message-schedule extension: append words until 64 are present. -/
def buildW (w : List Nat) : Nat → List Nat
  | 0 => w
  | k + 1 =>
    let n := w.length
    let next := w32 (sSig1 (w.getD (n - 2) 0) + w.getD (n - 7) 0 +
                     sSig0 (w.getD (n - 15) 0) + w.getD (n - 16) 0)
    buildW (w ++ [next]) k

/-- Big-endian packing of four bytes into one word. -/
def beWords : List Nat → List Nat
  | b0 :: b1 :: b2 :: b3 :: rest =>
    (((b0 * 256 + b1) * 256 + b2) * 256 + b3) :: beWords rest
  | _ => []

/-- Compression of one 64-byte block into the running hash. -/
def compressBlock (hsh : Sha8) (block : List Nat) : Sha8 :=
  let ws := buildW (beWords block) 48
  let st := (List.zip sha256K ws).foldl
    (fun st kw => compressStep st kw.1 kw.2) hsh
  { a := w32 (hsh.a + st.a), b := w32 (hsh.b + st.b)
    c := w32 (hsh.c + st.c), d := w32 (hsh.d + st.d)
    e := w32 (hsh.e + st.e), f := w32 (hsh.f + st.f)
    g := w32 (hsh.g + st.g), h := w32 (hsh.h + st.h) }

/-- Big-endian 8-byte rendering of the bit length. -/
def be64 (n : Nat) : List Nat :=
  [(n >>> 56) % 256, (n >>> 48) % 256, (n >>> 40) % 256, (n >>> 32) % 256,
   (n >>> 24) % 256, (n >>> 16) % 256, (n >>> 8) % 256, n % 256]

/-- SHA-256 padding: 0x80, zeros to 56 mod 64, 8-byte big-endian length. -/
def sha256Pad (msg : List Nat) : List Nat :=
  let len := msg.length
  let zeros := (120 - (len + 1) % 64) % 64
  msg ++ [0x80] ++ List.replicate zeros 0 ++ be64 (8 * len)

/-- Split a padded message into 64-byte blocks. -/
def toBlocks : List Nat → List (List Nat)
  | [] => []
  | b :: rest => (b :: rest).take 64 :: toBlocks ((b :: rest).drop 64)
termination_by l => l.length
decreasing_by
  simp only [List.length_drop, List.length_cons]
  omega

/-- Big-endian byte rendering of one word. -/
def be32 (n : Nat) : List Nat :=
  [(n >>> 24) % 256, (n >>> 16) % 256, (n >>> 8) % 256, n % 256]

/-- SHA-256 digest of a byte list. -/
def sha256Bytes (msg : List Nat) : List Nat :=
  let final := (toBlocks (sha256Pad msg)).foldl compressBlock sha256Init
  be32 final.a ++ be32 final.b ++ be32 final.c ++ be32 final.d ++
  be32 final.e ++ be32 final.f ++ be32 final.g ++ be32 final.h

/-- UTF-8 encoding of one character. -/
def charUtf8 (c : Char) : List Nat :=
  let n := c.toNat
  if n < 0x80 then [n]
  else if n < 0x800 then
    [0xC0 ||| (n >>> 6), 0x80 ||| (n &&& 0x3F)]
  else if n < 0x10000 then
    [0xE0 ||| (n >>> 12), 0x80 ||| ((n >>> 6) &&& 0x3F), 0x80 ||| (n &&& 0x3F)]
  else
    [0xF0 ||| (n >>> 18), 0x80 ||| ((n >>> 12) &&& 0x3F),
     0x80 ||| ((n >>> 6) &&& 0x3F), 0x80 ||| (n &&& 0x3F)]

/-- UTF-8 bytes of a string. -/
def strUtf8 (s : String) : List Nat := s.data.flatMap charUtf8

/-- Lowercase hex of one byte. -/
def byteHex (b : Nat) : String :=
  String.mk [Nat.digitChar (b / 16), Nat.digitChar (b % 16)]

/-- hashing.rs canonical_hash: lowercase-hex SHA-256 of the canonical
serialization bytes. -/
def canonical_hash (s : OrgState) : String :=
  String.join ((sha256Bytes (strUtf8 (canonical_serialize s))).map byteHex)

/-- replay.rs rebuild_state: fresh engine, initialize, apply every event,
return the final state and its canonical hash. -/
def rebuild_state (events : List EventEnvelope) :
    Except KError (OrgState × String) := do
  let eng ← applyAll OrgEngine.initial events
  match eng.state with
  | some st => .ok (st, canonical_hash st)
  | none => .error .engineNotInitialized

/-- drift.rs verify_determinism: replay twice, fail on hash mismatch. -/
def verify_determinism (events : List EventEnvelope) : Except KError Unit := do
  let r1 ← rebuild_state events
  let r2 ← rebuild_state events
  if r1.2 ≠ r2.2 then .error .determinismFailure else .ok ()

-- ═══════════════════════════════════════════════════════════════════
-- Part 9: wire types and codec bridge (proto_types.rs, proto_bridge.rs)
-- ═══════════════════════════════════════════════════════════════════

/-- proto_types.rs ProtoRole (u32/u64 fields are Nat). -/
structure ProtoRole where
  id : String
  name : String
  purpose : String
  responsibilities : List String
  required_inputs : List String
  produced_outputs : List String
  scale_stage : String
  active : Bool
  deriving Repr, DecidableEq

/-- proto_types.rs ProtoDomainConstants: u32 tunables plus the i64
minimum capacity. -/
structure ProtoDomainConstants where
  differentiation_threshold : Nat
  differentiation_min_capacity : Int
  compression_max_combined_responsibilities : Nat
  shock_deactivation_threshold : Nat
  shock_debt_base_multiplier : Nat
  suppressed_differentiation_debt_increment : Nat
  deriving Repr, DecidableEq

/-- proto_types.rs InitializeConstants message. -/
structure PInitializeConstants where
  constants : Option ProtoDomainConstants
  deriving Repr, DecidableEq

/-- proto_types.rs AddRole message. -/
structure PAddRole where
  role : Option ProtoRole
  deriving Repr, DecidableEq

/-- proto_types.rs RemoveRole message. -/
structure PRemoveRole where
  role_id : String
  deriving Repr, DecidableEq

/-- proto_types.rs DifferentiateRole message. -/
structure PDifferentiateRole where
  role_id : String
  new_roles : List ProtoRole
  deriving Repr, DecidableEq

/-- proto_types.rs CompressRoles message. -/
structure PCompressRoles where
  source_role_id : String
  target_role_id : String
  compressed_name : String
  compressed_purpose : String
  deriving Repr, DecidableEq

/-- proto_types.rs ApplyConstraintChange message (i64 deltas). -/
structure PApplyConstraintChange where
  capital_delta : Int
  talent_delta : Int
  time_delta : Int
  political_cost_delta : Int
  deriving Repr, DecidableEq

/-- proto_types.rs InjectShock message (u32 magnitude). -/
structure PInjectShock where
  target_role_id : String
  magnitude : Nat
  deriving Repr, DecidableEq

/-- proto_types.rs EventKind oneof. -/
inductive EventKind where
  | addRole (v : PAddRole)
  | removeRole (v : PRemoveRole)
  | differentiateRole (v : PDifferentiateRole)
  | compressRoles (v : PCompressRoles)
  | applyConstraintChange (v : PApplyConstraintChange)
  | injectShock (v : PInjectShock)
  | initializeConstants (v : PInitializeConstants)
  deriving Repr, DecidableEq

/-- proto_types.rs ProtoEvent. -/
structure ProtoEvent where
  kind : Option EventKind
  deriving Repr, DecidableEq

/-- proto_types.rs ProtoEventEnvelope. -/
structure ProtoEventEnvelope where
  sequence : Nat
  logical_time : Nat
  event : Option ProtoEvent
  deriving Repr, DecidableEq

/-- add_role payload built by proto_to_kernel (key order of the json!
block; note active is not carried). -/
def addRolePayload (r : ProtoRole) : Json :=
  .obj [("id", .str r.id), ("name", .str r.name), ("purpose", .str r.purpose),
        ("responsibilities", .arr (r.responsibilities.map .str)),
        ("required_inputs", .arr (r.required_inputs.map .str)),
        ("produced_outputs", .arr (r.produced_outputs.map .str)),
        ("scale_stage", .str r.scale_stage)]

/-- new_roles entry payload built by proto_to_kernel (neither scale_stage
nor active is carried). -/
def newRolePayload (r : ProtoRole) : Json :=
  .obj [("id", .str r.id), ("name", .str r.name), ("purpose", .str r.purpose),
        ("responsibilities", .arr (r.responsibilities.map .str)),
        ("required_inputs", .arr (r.required_inputs.map .str)),
        ("produced_outputs", .arr (r.produced_outputs.map .str))]

/-- proto_bridge.rs proto_to_kernel: panics on a missing event, kind, or
required sub-message are modelled as none. -/
def proto_to_kernel (proto : ProtoEventEnvelope) : Option EventEnvelope := do
  let ev ← proto.event
  let kind ← ev.kind
  let tp : String × Json ←
    (match kind with
     | .initializeConstants ic => do
       let c ← ic.constants
       pure ("initialize_constants", Json.obj
         [("differentiation_threshold", .int c.differentiation_threshold),
          ("differentiation_min_capacity", .int c.differentiation_min_capacity),
          ("compression_max_combined_responsibilities",
            .int c.compression_max_combined_responsibilities),
          ("shock_deactivation_threshold", .int c.shock_deactivation_threshold),
          ("shock_debt_base_multiplier", .int c.shock_debt_base_multiplier),
          ("suppressed_differentiation_debt_increment",
            .int c.suppressed_differentiation_debt_increment)])
     | .addRole ar => do
       let r ← ar.role
       pure ("add_role", addRolePayload r)
     | .removeRole rr =>
       pure ("remove_role", Json.obj [("role_id", .str rr.role_id)])
     | .differentiateRole dr =>
       pure ("differentiate_role", Json.obj
         [("role_id", .str dr.role_id),
          ("new_roles", .arr (dr.new_roles.map newRolePayload))])
     | .compressRoles cr =>
       pure ("compress_roles", Json.obj
         [("source_role_id", .str cr.source_role_id),
          ("target_role_id", .str cr.target_role_id),
          ("compressed_name", .str cr.compressed_name),
          ("compressed_purpose", .str cr.compressed_purpose)])
     | .applyConstraintChange ac =>
       pure ("apply_constraint_change", Json.obj
         [("capital_delta", .int ac.capital_delta),
          ("talent_delta", .int ac.talent_delta),
          ("time_delta", .int ac.time_delta),
          ("political_cost_delta", .int ac.political_cost_delta)])
     | .injectShock sh =>
       pure ("inject_shock", Json.obj
         [("target_role_id", .str sh.target_role_id),
          ("magnitude", .int sh.magnitude)]))
  pure { event_type := tp.1, sequence := proto.sequence, timestamp := ""
         logical_time := proto.logical_time, payload := tp.2
         schema_version := 1 }

/-- proto_bridge.rs json_to_proto_role: defaults for every missing field
(empty strings or lists, scale_stage seed, active true). -/
def json_to_proto_role (v : Json) : ProtoRole :=
  let str_array : String → List String := fun key =>
    match (jGet v key).bind jAsArr with
    | some arr => arr.filterMap jAsStr
    | none => []
  { id := (jAsStr (jIndex v "id")).getD ""
    name := (jAsStr (jIndex v "name")).getD ""
    purpose := (jAsStr (jIndex v "purpose")).getD ""
    responsibilities := str_array "responsibilities"
    required_inputs := str_array "required_inputs"
    produced_outputs := str_array "produced_outputs"
    scale_stage := ((jGet v "scale_stage").bind jAsStr).getD "seed"
    active := ((jGet v "active").bind jAsBool).getD true }

/-- proto_bridge.rs kernel_to_proto: the unknown-event panic is none;
u32 fields are read with as_u64 and truncated (as u32). -/
def kernel_to_proto (kernel : EventEnvelope) : Option ProtoEventEnvelope := do
  let p := kernel.payload
  let kind : EventKind ←
    (match kernel.event_type with
     | "initialize_constants" =>
       let c : ProtoDomainConstants :=
         { differentiation_threshold :=
             ((jAsU64 (jIndex p "differentiation_threshold")).getD 3) % 2 ^ 32
           differentiation_min_capacity :=
             (jAsI64 (jIndex p "differentiation_min_capacity")).getD 60000
           compression_max_combined_responsibilities :=
             ((jAsU64 (jIndex p "compression_max_combined_responsibilities")).getD 5) % 2 ^ 32
           shock_deactivation_threshold :=
             ((jAsU64 (jIndex p "shock_deactivation_threshold")).getD 8) % 2 ^ 32
           shock_debt_base_multiplier :=
             ((jAsU64 (jIndex p "shock_debt_base_multiplier")).getD 1) % 2 ^ 32
           suppressed_differentiation_debt_increment :=
             ((jAsU64 (jIndex p "suppressed_differentiation_debt_increment")).getD 1) % 2 ^ 32 }
       some (EventKind.initializeConstants { constants := some c })
     | "add_role" =>
       some (.addRole { role := some (json_to_proto_role p) })
     | "remove_role" =>
       some (.removeRole { role_id := (jAsStr (jIndex p "role_id")).getD "" })
     | "differentiate_role" =>
       some (.differentiateRole
         { role_id := (jAsStr (jIndex p "role_id")).getD ""
           new_roles :=
             match (jGet p "new_roles").bind jAsArr with
             | some arr => arr.map json_to_proto_role
             | none => [] })
     | "compress_roles" =>
       some (.compressRoles
         { source_role_id := (jAsStr (jIndex p "source_role_id")).getD ""
           target_role_id := (jAsStr (jIndex p "target_role_id")).getD ""
           compressed_name := (jAsStr (jIndex p "compressed_name")).getD ""
           compressed_purpose := (jAsStr (jIndex p "compressed_purpose")).getD "" })
     | "apply_constraint_change" =>
       some (.applyConstraintChange
         { capital_delta := (jAsI64 (jIndex p "capital_delta")).getD 0
           talent_delta := (jAsI64 (jIndex p "talent_delta")).getD 0
           time_delta := (jAsI64 (jIndex p "time_delta")).getD 0
           political_cost_delta := (jAsI64 (jIndex p "political_cost_delta")).getD 0 })
     | "inject_shock" =>
       some (.injectShock
         { target_role_id := (jAsStr (jIndex p "target_role_id")).getD ""
           magnitude := ((jAsU64 (jIndex p "magnitude")).getD 0) % 2 ^ 32 })
     | _ => none)
  pure { sequence := kernel.sequence, logical_time := kernel.logical_time
         event := some { kind := some kind } }

-- ═══════════════════════════════════════════════════════════════════
-- Part 9b: semantic predicates, spec-side formulas, concrete fixtures
-- ═══════════════════════════════════════════════════════════════════

/-- One critical-dependency step: a critical edge from u to v. -/
def criticalStep (s : OrgState) (u v : String) : Prop :=
  ∃ e ∈ s.dependencies, e.critical = true ∧ e.from_role_id = u ∧ e.to_role_id = v

/-- Adjacency form of a critical step (used inside the DFS proofs). -/
def EdgeStep (deps : List DependencyEdge) (u v : String) : Prop :=
  v ∈ adjGet deps u

/-- Invariant I1: every dependency edge's endpoints exist in roles. -/
def InvDependencyRefs (s : OrgState) : Prop :=
  ∀ e ∈ s.dependencies,
    e.from_role_id ∈ s.roles.map Prod.fst ∧ e.to_role_id ∈ s.roles.map Prod.fst

/-- Invariant I2: every produced output is consumed as a required input. -/
def InvOrphanedOutputs (s : OrgState) : Prop :=
  ∀ p ∈ s.roles, ∀ out ∈ p.2.produced_outputs,
    ∃ q ∈ s.roles, out ∈ q.2.required_inputs

/-- Invariant I3: role IDs are unique. -/
def InvUniqueIds (s : OrgState) : Prop := (s.roles.map Prod.fst).Nodup

/-- Invariant I4: at least one active role whenever any roles exist. -/
def InvActiveRole (s : OrgState) : Prop :=
  s.roles ≠ [] → ∃ p ∈ s.roles, p.2.active = true

/-- Invariant I5: no role has zero responsibilities. -/
def InvNonemptyResponsibilities (s : OrgState) : Prop :=
  ∀ p ∈ s.roles, p.2.responsibilities ≠ []

/-- Invariant I6: no directed cycle in which every edge is critical. -/
def InvNoCriticalCycle (s : OrgState) : Prop :=
  ∀ x, ¬ Relation.TransGen (criticalStep s) x x

/-- Invariant I7: every role ID is non-empty and matches [a-zA-Z0-9_-]+. -/
def InvRoleIdFormat (s : OrgState) : Prop :=
  ∀ p ∈ s.roles, p.1 ≠ "" ∧ ∀ c ∈ p.1.data, validIdChar c = true

/-- Scanned-neighbour condition of the DFS invariant: for each stack
entry, every already-scanned neighbour is black, or grey and strictly
above the entry on the stack; the first argument accumulates the nodes
above the current entry. -/
def ScannedOk (deps : List DependencyEdge) (col : ColMap) :
    List String → List (String × Nat) → Prop
  | _, [] => True
  | above, (n, k) :: rest =>
    (∀ v ∈ (adjGet deps n).take k,
      colGet col v = 2 ∨ (colGet col v = 1 ∧ v ∈ above)) ∧
    ScannedOk deps col (n :: above) rest

/-- Full invariant of the DFS loop state. -/
structure DfsInv (deps : List DependencyEdge) (col : ColMap)
    (stack : List (String × Nat)) : Prop where
  grey_iff : ∀ n, colGet col n = 1 ↔ n ∈ stack.map Prod.fst
  nodup : (stack.map Prod.fst).Nodup
  range : ∀ n, colGet col n ≤ 2
  scanned : ScannedOk deps col [] stack
  black_acyclic : ∀ n, colGet col n = 2 →
    ¬ Relation.TransGen (EdgeStep deps) n n
  black_closed : ∀ u v, colGet col u = 2 → EdgeStep deps u v →
    colGet col v = 2

/-- Invariant between runs of the outer start loop: no greys, colours in
range, no black node lies on a critical cycle, and the black set is
closed under critical edges. -/
structure OuterInv (deps : List DependencyEdge) (col : ColMap) : Prop where
  no_grey : ∀ n, colGet col n ≠ 1
  range : ∀ n, colGet col n ≤ 2
  black_acyclic : ∀ n, colGet col n = 2 →
    ¬ Relation.TransGen (EdgeStep deps) n n
  black_closed : ∀ u v, colGet col u = 2 → EdgeStep deps u v →
    colGet col v = 2

/-- What a completed cycle-free DFS run guarantees about the final
colour map, relative to the starting one. -/
structure DfsDone (deps : List DependencyEdge) (col col2 : ColMap) : Prop where
  no_grey : ∀ n, colGet col2 n ≠ 1
  range : ∀ n, colGet col2 n ≤ 2
  mono : ∀ n, colGet col n ≠ 0 → colGet col2 n ≠ 0
  black_acyclic : ∀ n, colGet col2 n = 2 →
    ¬ Relation.TransGen (EdgeStep deps) n n
  black_closed : ∀ u v, colGet col2 u = 2 → EdgeStep deps u v →
    colGet col2 v = 2

/-- Pure-arithmetic form of the role-local density (graph.rs formula
without the checked-overflow plumbing). -/
def role_density_pure (rid : String) (s : OrgState) : Int :=
  if s.dependencies.isEmpty then 0
  else
    (((s.dependencies.filter
        (fun d => d.from_role_id = rid || d.to_role_id = rid)).length : Int) *
      SCALE).tdiv (s.dependencies.length : Int)

/-- Pure-arithmetic form of the secondary shock debt: the sum, over the
deduplicated neighbours of the target that still exist in roles, of
max(1, magnitude * neighbour density). -/
def secondary_pure (s : OrgState) (tid : String) (mag : Int) : Int :=
  ((connectedIds s.dependencies tid).filter
    (fun cid => mapContains s.roles cid)).foldl
      (fun acc cid => acc + max (mag * role_density_pure cid s) 1) 0

/-- Wire envelopes whose payload mapping is lossless: AddRole roles must
be active, DifferentiateRole new-roles must be active with scale_stage
seed (the payload does not carry those fields), and numeric fields must
lie in their machine ranges. -/
def losslessKind : EventKind → Prop
  | .addRole ar => ∃ r, ar.role = some r ∧ r.active = true
  | .removeRole _ => True
  | .differentiateRole dr =>
    ∀ r ∈ dr.new_roles, r.active = true ∧ r.scale_stage = "seed"
  | .compressRoles _ => True
  | .applyConstraintChange ac =>
    fitsI64 ac.capital_delta = true ∧ fitsI64 ac.talent_delta = true ∧
    fitsI64 ac.time_delta = true ∧ fitsI64 ac.political_cost_delta = true
  | .injectShock sh => sh.magnitude < 2 ^ 32
  | .initializeConstants ic =>
    ∃ c, ic.constants = some c ∧
      c.differentiation_threshold < 2 ^ 32 ∧
      fitsI64 c.differentiation_min_capacity = true ∧
      c.compression_max_combined_responsibilities < 2 ^ 32 ∧
      c.shock_deactivation_threshold < 2 ^ 32 ∧
      c.shock_debt_base_multiplier < 2 ^ 32 ∧
      c.suppressed_differentiation_debt_increment < 2 ^ 32

-- Concrete fixtures used by witnesses and counterexamples.

/-- Payload carrying the six default domain constants. -/
def defaultsPayload : Json :=
  .obj [("differentiation_threshold", .int 3),
        ("differentiation_min_capacity", .int 60000),
        ("compression_max_combined_responsibilities", .int 5),
        ("shock_deactivation_threshold", .int 8),
        ("shock_debt_base_multiplier", .int 1),
        ("suppressed_differentiation_debt_increment", .int 1)]

/-- The initialize_constants event with default payload, sequence 1. -/
def initDefaultsEvent : EventEnvelope :=
  { event_type := "initialize_constants", sequence := 1, timestamp := ""
    logical_time := 0, payload := defaultsPayload, schema_version := 1 }

/-- The add_role event of the add/remove symmetry scenario. -/
def addRoleEventA : EventEnvelope :=
  { event_type := "add_role", sequence := 2, timestamp := "", logical_time := 0
    payload := .obj [("id", .str "a"), ("name", .str "A"), ("purpose", .str "p"),
      ("responsibilities", .arr [.str "r"]),
      ("required_inputs", .arr [.str "x"]),
      ("produced_outputs", .arr [.str "x"])]
    schema_version := 1 }

/-- The remove_role event of the add/remove symmetry scenario. -/
def removeRoleEventA : EventEnvelope :=
  { event_type := "remove_role", sequence := 3, timestamp := "", logical_time := 0
    payload := .obj [("role_id", .str "a")], schema_version := 1 }

/-- An add_role event with an empty payload: it passes every engine gate
at sequence 2 but its handler fails on the missing id field. -/
def badAddEvent : EventEnvelope :=
  { event_type := "add_role", sequence := 2, timestamp := "", logical_time := 0
    payload := .obj [], schema_version := 1 }

/-- A role with one responsibility (differentiation gets skipped). -/
def roleSmall : Role :=
  { id := "r", name := "R", purpose := "p", responsibilities := ["r1"]
    required_inputs := [], produced_outputs := [], scale_stage := "seed"
    active := true }

/-- A single-role state for the C5 and C10 witnesses. -/
def stateSmall : OrgState :=
  { create_initial_state with roles := [("r", roleSmall)] }

/-- A differentiate_role event targeting role r. -/
def diffEventR : EventEnvelope :=
  { event_type := "differentiate_role", sequence := 4, timestamp := ""
    logical_time := 0, payload := .obj [("role_id", .str "r")]
    schema_version := 1 }

/-- A compress_roles event whose source and target are both role r. -/
def compressSelfEventR : EventEnvelope :=
  { event_type := "compress_roles", sequence := 4, timestamp := ""
    logical_time := 0
    payload := .obj [("source_role_id", .str "r"), ("target_role_id", .str "r")]
    schema_version := 1 }

/-- An apply_constraint_change event driving capital negative. -/
def negConstraintEvent : EventEnvelope :=
  { event_type := "apply_constraint_change", sequence := 4, timestamp := ""
    logical_time := 0
    payload := .obj [("capital_delta", .int (-60000))]
    schema_version := 1 }

/-- Shock-scenario target role. -/
def roleT : Role :=
  { id := "t", name := "T", purpose := "p", responsibilities := ["a"]
    required_inputs := [], produced_outputs := [], scale_stage := "seed"
    active := true }

/-- Shock-scenario neighbour role. -/
def roleN : Role :=
  { id := "n", name := "N", purpose := "p", responsibilities := ["b"]
    required_inputs := [], produced_outputs := [], scale_stage := "seed"
    active := true }

/-- A ghost edge between ids that are not roles (only the transition
kernel is exercised here, not the invariant checker). -/
def ghostEdge (i : Nat) : DependencyEdge :=
  { from_role_id := "g" ++ toString i, to_role_id := "h" ++ toString i
    dependency_type := "operational", critical := false }

/-- Shock-scenario state: 10 edges; the target t touches two of them
(density 2000), the neighbour n touches one (density 1000); the second
edge from t points at an id that is not a role, so n is the only
neighbour contributing secondary debt. -/
def shockState : OrgState :=
  { create_initial_state with
      roles := [("n", roleN), ("t", roleT)]
      dependencies :=
        [{ from_role_id := "t", to_role_id := "n"
           dependency_type := "operational", critical := true },
         { from_role_id := "t", to_role_id := "x"
           dependency_type := "operational", critical := false },
         ghostEdge 1, ghostEdge 2, ghostEdge 3, ghostEdge 4,
         ghostEdge 5, ghostEdge 6, ghostEdge 7, ghostEdge 8] }

/-- The magnitude-10 shock at target t. -/
def shockEvent : EventEnvelope :=
  { event_type := "inject_shock", sequence := 4, timestamp := ""
    logical_time := 0
    payload := .obj [("target_role_id", .str "t"), ("magnitude", .int 10)]
    schema_version := 1 }

/-- A wire AddRole envelope whose role record has active = false: the
payload mapping drops the flag. -/
def inactiveAddWire : ProtoEventEnvelope :=
  let r : ProtoRole :=
    { id := "a", name := "A", purpose := "p", responsibilities := ["r"]
      required_inputs := [], produced_outputs := [], scale_stage := "seed"
      active := false }
  { sequence := 1, logical_time := 0
    event := some { kind := some (.addRole { role := some r }) } }

/-- A wire CompressRoles envelope (a kind whose payload mapping carries
every field). -/
def compressWire : ProtoEventEnvelope :=
  { sequence := 7, logical_time := 3
    event := some { kind := some (.compressRoles
      { source_role_id := "s", target_role_id := "t"
        compressed_name := "c", compressed_purpose := "q" }) } }

-- ═══════════════════════════════════════════════════════════════════
-- Part 10: supporting lemmas
-- ═══════════════════════════════════════════════════════════════════

theorem mem_insertStable {α : Type} (le : α → α → Bool) (a x : α) :
    ∀ l : List α, a ∈ insertStable le x l ↔ a = x ∨ a ∈ l
  | [] => by simp [insertStable]
  | y :: l => by
    simp only [insertStable]
    by_cases h : le y x = true
    · rw [if_pos h]
      rw [List.mem_cons, mem_insertStable le a x l, List.mem_cons]
      tauto
    · rw [if_neg h]
      simp only [List.mem_cons]

theorem mem_sortStable_fold {α : Type} (le : α → α → Bool) (a : α) :
    ∀ (l acc : List α),
      a ∈ l.foldl (fun acc x => insertStable le x acc) acc ↔ a ∈ acc ∨ a ∈ l
  | [], acc => by simp
  | x :: l, acc => by
    simp only [List.foldl_cons]
    rw [mem_sortStable_fold le a l]
    rw [mem_insertStable]
    simp only [List.mem_cons]
    tauto

theorem mem_sortStable {α : Type} (le : α → α → Bool) (a : α) (l : List α) :
    a ∈ sortStable le l ↔ a ∈ l := by
  unfold sortStable
  rw [mem_sortStable_fold]
  simp

theorem mem_sortStr (a : String) (l : List String) :
    a ∈ sortStr l ↔ a ∈ l := mem_sortStable strLe a l

theorem adjGet_subset_targets {deps : List DependencyEdge} {n v : String}
    (h : v ∈ adjGet deps n) : v ∈ critTargets deps := by
  unfold adjGet at h
  rw [mem_sortStr] at h
  simp only [List.mem_map, List.mem_filter, Bool.and_eq_true] at h
  obtain ⟨e, ⟨he, hc, _⟩, hv⟩ := h
  unfold critTargets
  simp only [List.mem_map, List.mem_filter]
  exact ⟨e, ⟨he, hc⟩, hv⟩

theorem colGet_colSet (col : ColMap) (n m : String) (c : Nat) :
    colGet (colSet col n c) m = if m = n then c else colGet col m := by
  unfold colGet colSet
  simp only [List.find?_cons]
  by_cases h : m = n
  · subst h; simp
  · have : (decide (n = m)) = false := by
      simp only [decide_eq_false_iff_not]
      exact fun hh => h hh.symm
    simp [this, h]

theorem countP_strict {α : Type} {p q : α → Bool} :
    ∀ (l : List α), (∀ x ∈ l, p x = true → q x = true) →
    ∀ x ∈ l, q x = true → p x = false → l.countP p < l.countP q
  | [], _, x, hx, _, _ => by simp at hx
  | y :: l, mono, x, hx, hqx, hpx => by
    rw [List.mem_cons] at hx
    rcases hx with rfl | hx
    · rw [List.countP_cons, List.countP_cons, hqx, hpx]
      have : l.countP p ≤ l.countP q :=
        List.countP_mono_left (fun a ha => mono a (List.mem_cons_of_mem _ ha))
      simp only [Bool.false_eq_true, if_false, if_true]
      omega
    · rw [List.countP_cons, List.countP_cons]
      have hlt : l.countP p < l.countP q :=
        countP_strict l (fun a ha => mono a (List.mem_cons_of_mem _ ha)) x hx hqx hpx
      have hy : (if p y = true then 1 else 0) ≤ (if q y = true then 1 else 0) := by
        by_cases hpy : p y = true
        · simp [hpy, mono y (List.mem_cons_self y l) hpy]
        · simp [hpy]
      omega

theorem whiteCount_colSet_le (deps : List DependencyEdge) (col : ColMap)
    (n : String) (c : Nat) (hc : c ≠ 0) :
    whiteCount deps (colSet col n c) ≤ whiteCount deps col := by
  unfold whiteCount
  apply List.countP_mono_left
  intro a _ ha
  rw [colGet_colSet] at ha
  by_cases h : a = n
  · rw [if_pos h] at ha
    simp only [beq_iff_eq] at ha
    exact absurd ha hc
  · rw [if_neg h] at ha
    exact ha

theorem whiteCount_colSet_lt (deps : List DependencyEdge) (col : ColMap)
    {n : String} (c : Nat) (hmem : n ∈ critTargets deps)
    (hwhite : colGet col n = 0) (hc : c ≠ 0) :
    whiteCount deps (colSet col n c) < whiteCount deps col := by
  unfold whiteCount
  apply countP_strict
  · intro a _ ha
    rw [colGet_colSet] at ha
    by_cases h : a = n
    · rw [if_pos h] at ha
      simp only [beq_iff_eq] at ha
      exact absurd ha hc
    · rw [if_neg h] at ha
      exact ha
  · exact hmem
  · simp [hwhite]
  · rw [colGet_colSet]
    simp [hc]

theorem length_insertStable {α : Type} (le : α → α → Bool) (x : α) :
    ∀ l : List α, (insertStable le x l).length = l.length + 1
  | [] => rfl
  | y :: l => by
    simp only [insertStable]
    by_cases h : le y x = true
    · rw [if_pos h]
      simp [length_insertStable le x l]
    · rw [if_neg h]
      simp

theorem length_sortStable_fold {α : Type} (le : α → α → Bool) :
    ∀ (l acc : List α),
      (l.foldl (fun acc x => insertStable le x acc) acc).length =
        acc.length + l.length
  | [], acc => by simp
  | x :: l, acc => by
    simp only [List.foldl_cons]
    rw [length_sortStable_fold le l]
    rw [length_insertStable]
    simp only [List.length_cons]
    omega

theorem length_sortStr (l : List String) : (sortStr l).length = l.length := by
  unfold sortStr sortStable
  rw [length_sortStable_fold]
  simp

theorem adjGet_length_le (deps : List DependencyEdge) (n : String) :
    (adjGet deps n).length ≤ deps.length := by
  unfold adjGet
  rw [length_sortStr, List.length_map]
  exact List.length_filter_le _ _

theorem dfsFuel_dec_scan (deps : List DependencyEdge) (col : ColMap)
    (node : String) (idx : Nat) (rest : List (String × Nat))
    (h : idx < (adjGet deps node).length) :
    dfsFuel deps col ((node, idx + 1) :: rest) < dfsFuel deps col ((node, idx) :: rest) := by
  unfold dfsFuel
  simp only [stackWeight]
  omega

theorem dfsFuel_dec_push (deps : List DependencyEdge) (col : ColMap)
    (node : String) (idx : Nat) (rest : List (String × Nat)) (nbr : String)
    (h : idx < (adjGet deps node).length)
    (hmem : nbr ∈ critTargets deps) (hwhite : colGet col nbr = 0) :
    dfsFuel deps (colSet col nbr 1) ((nbr, 0) :: (node, idx + 1) :: rest) <
      dfsFuel deps col ((node, idx) :: rest) := by
  unfold dfsFuel
  have hw : whiteCount deps (colSet col nbr 1) < whiteCount deps col :=
    whiteCount_colSet_lt deps col 1 hmem hwhite one_ne_zero
  have hlen : (adjGet deps nbr).length ≤ deps.length := adjGet_length_le deps nbr
  simp only [stackWeight]
  have hmul : (whiteCount deps (colSet col nbr 1) + 1) * (deps.length + 2) ≤
      whiteCount deps col * (deps.length + 2) :=
    Nat.mul_le_mul_right _ hw
  rw [Nat.succ_mul] at hmul
  omega

theorem dfsFuel_dec_pop (deps : List DependencyEdge) (col : ColMap)
    (node : String) (idx : Nat) (rest : List (String × Nat))
    (h : ¬ idx < (adjGet deps node).length) :
    dfsFuel deps (colSet col node 2) rest < dfsFuel deps col ((node, idx) :: rest) := by
  unfold dfsFuel
  have hle := whiteCount_colSet_le deps col node 2 two_ne_zero
  have hmul : whiteCount deps (colSet col node 2) * (deps.length + 2) ≤
      whiteCount deps col * (deps.length + 2) :=
    Nat.mul_le_mul_right _ hle
  simp only [stackWeight]
  have hz : (adjGet deps node).length - idx = 0 := by omega
  omega

theorem dfsLoopF_succ_unfold (deps : List DependencyEdge) (fuel : Nat)
    (col : ColMap) (node : String) (idx : Nat) (rest : List (String × Nat))
    (cycles : List (List String)) :
    dfsLoopF deps (fuel + 1) col ((node, idx) :: rest) cycles =
      if h : idx < (adjGet deps node).length then
        if colGet col ((adjGet deps node).get ⟨idx, h⟩) = 1 then
          dfsLoopF deps fuel col ((node, idx+1) :: rest)
            (cycles ++ [(adjGet deps node).get ⟨idx, h⟩ ::
              takeToNbr ((adjGet deps node).get ⟨idx, h⟩) ((node, idx+1) :: rest)])
        else if colGet col ((adjGet deps node).get ⟨idx, h⟩) = 0 then
          dfsLoopF deps fuel (colSet col ((adjGet deps node).get ⟨idx, h⟩) 1)
            (((adjGet deps node).get ⟨idx, h⟩, 0) :: (node, idx+1) :: rest) cycles
        else
          dfsLoopF deps fuel col ((node, idx+1) :: rest) cycles
      else
        dfsLoopF deps fuel (colSet col node 2) rest cycles := rfl

theorem dfsLoopF_stable (deps : List DependencyEdge) :
    ∀ (fuel : Nat) (col : ColMap) (stack : List (String × Nat))
      (cycles : List (List String)), dfsFuel deps col stack ≤ fuel →
      dfsLoopF deps (fuel + 1) col stack cycles = dfsLoopF deps fuel col stack cycles
  | fuel, col, [], cycles, _ => by
    cases fuel <;> rfl
  | 0, col, (node, idx) :: rest, cycles, hf => by
    exfalso
    unfold dfsFuel at hf
    simp only [stackWeight] at hf
    omega
  | fuel + 1, col, (node, idx) :: rest, cycles, hf => by
    conv_lhs => rw [dfsLoopF_succ_unfold]
    conv_rhs => rw [dfsLoopF_succ_unfold]
    by_cases h : idx < (adjGet deps node).length
    · rw [dif_pos h, dif_pos h]
      by_cases h1 : colGet col ((adjGet deps node).get ⟨idx, h⟩) = 1
      · rw [if_pos h1, if_pos h1]
        exact dfsLoopF_stable deps fuel col ((node, idx+1) :: rest) _
          (by have := dfsFuel_dec_scan deps col node idx rest h; omega)
      · rw [if_neg h1, if_neg h1]
        by_cases h0 : colGet col ((adjGet deps node).get ⟨idx, h⟩) = 0
        · rw [if_pos h0, if_pos h0]
          refine dfsLoopF_stable deps fuel _ _ _ ?_
          have := dfsFuel_dec_push deps col node idx rest _ h
            (adjGet_subset_targets (List.get_mem _ _ h)) h0
          omega
        · rw [if_neg h0, if_neg h0]
          exact dfsLoopF_stable deps fuel col ((node, idx+1) :: rest) _
            (by have := dfsFuel_dec_scan deps col node idx rest h; omega)
    · rw [dif_neg h, dif_neg h]
      refine dfsLoopF_stable deps fuel _ _ _ ?_
      have := dfsFuel_dec_pop deps col node idx rest h
      omega

theorem mapLookup_mapErase_self {α : Type} (m : List (String × α)) (k : String) :
    mapLookup (mapErase m k) k = none := by
  induction m with
  | nil => rfl
  | cons p rest ih =>
    unfold mapErase at ih ⊢
    simp only [List.filter_cons]
    by_cases h : p.1 = k
    · subst h
      simpa using ih
    · have hd : (decide ¬ p.1 = k) = true := by simp [h]
      rw [hd, if_pos rfl]
      unfold mapLookup
      rw [if_neg (fun hh => h hh.symm)]
      simpa using ih

theorem mapContains_iff_mem_keys {α : Type} (m : List (String × α)) (k : String) :
    mapContains m k = true ↔ k ∈ m.map Prod.fst := by
  induction m with
  | nil => simp [mapContains, mapLookup]
  | cons p rest ih =>
    unfold mapContains mapLookup
    by_cases h : k = p.1
    · subst h
      simp
    · rw [if_neg h]
      unfold mapContains at ih
      rw [ih]
      simp only [List.map_cons, List.mem_cons]
      constructor
      · exact Or.inr
      · rintro (hh | hh)
        · exact absurd hh h
        · exact hh

theorem mem_setInsert (a x : String) :
    ∀ l : List String, a ∈ setInsert x l ↔ a = x ∨ a ∈ l
  | [] => by simp [setInsert]
  | y :: l => by
    unfold setInsert
    by_cases h1 : strLt x y = true
    · rw [if_pos h1]
      simp only [List.mem_cons]
    · rw [if_neg h1]
      by_cases h2 : x = y
      · rw [if_pos h2]
        subst h2
        simp only [List.mem_cons]
        tauto
      · rw [if_neg h2]
        simp only [List.mem_cons, mem_setInsert a x l]
        tauto

theorem mem_setOfList_fold (a : String) :
    ∀ (l acc : List String),
      a ∈ l.foldl (fun acc x => setInsert x acc) acc ↔ a ∈ acc ∨ a ∈ l
  | [], acc => by simp
  | x :: l, acc => by
    simp only [List.foldl_cons]
    rw [mem_setOfList_fold a l]
    rw [mem_setInsert]
    simp only [List.mem_cons]
    tauto

theorem mem_setOfList (a : String) (l : List String) :
    a ∈ setOfList l ↔ a ∈ l := by
  unfold setOfList
  rw [mem_setOfList_fold]
  simp

theorem charToNat_inj {a b : Char} (h : a.toNat = b.toNat) : a = b := by
  have hv : a.val = b.val := by
    apply UInt32.ext
    simpa [Char.toNat] using h
  exact Char.ext hv

theorem charListLt_irrefl : ∀ l : List Char, charListLt l l = false
  | [] => rfl
  | c :: cs => by
    unfold charListLt
    simp only [lt_irrefl, if_false]
    exact charListLt_irrefl cs

theorem charListLt_trans :
    ∀ a b c : List Char, charListLt a b = true → charListLt b c = true →
      charListLt a c = true
  | [], [], _, hab, _ => by simp [charListLt] at hab
  | [], _ :: _, [], _, hbc => by simp [charListLt] at hbc
  | [], _ :: _, _ :: _, _, _ => by simp [charListLt]
  | _ :: _, [], _, hab, _ => by simp [charListLt] at hab
  | _ :: _, _ :: _, [], _, hbc => by simp [charListLt] at hbc
  | a1 :: as2, b1 :: bs, c1 :: cs, hab, hbc => by
    unfold charListLt at hab hbc ⊢
    by_cases h1 : a1.toNat < b1.toNat
    · by_cases h2 : b1.toNat < c1.toNat
      · rw [if_pos (Nat.lt_trans h1 h2)]
      · rw [if_neg h2] at hbc
        by_cases h3 : c1.toNat < b1.toNat
        · rw [if_pos h3] at hbc
          exact absurd hbc (by simp)
        · have : b1.toNat = c1.toNat := by omega
          rw [if_pos (this ▸ h1)]
    · rw [if_neg h1] at hab
      by_cases h4 : b1.toNat < a1.toNat
      · rw [if_pos h4] at hab
        exact absurd hab (by simp)
      · have hba : a1.toNat = b1.toNat := by omega
        rw [if_neg h4] at hab
        by_cases h2 : b1.toNat < c1.toNat
        · rw [if_pos (hba ▸ h2)]
        · rw [if_neg h2] at hbc
          by_cases h3 : c1.toNat < b1.toNat
          · rw [if_pos h3] at hbc
            exact absurd hbc (by simp)
          · have hcb : b1.toNat = c1.toNat := by omega
            rw [if_neg (show ¬ a1.toNat < c1.toNat by omega),
              if_neg (show ¬ c1.toNat < a1.toNat by omega)]
            rw [if_neg h3] at hbc
            exact charListLt_trans as2 bs cs hab hbc

theorem charListLt_connex :
    ∀ a b : List Char, charListLt a b = false → charListLt b a = false → a = b
  | [], [], _, _ => rfl
  | [], _ :: _, hab, _ => by simp [charListLt] at hab
  | _ :: _, [], _, hba => by simp [charListLt] at hba
  | a1 :: as2, b1 :: bs, hab, hba => by
    unfold charListLt at hab hba
    by_cases h1 : a1.toNat < b1.toNat
    · rw [if_pos h1] at hab
      exact absurd hab (by simp)
    · by_cases h2 : b1.toNat < a1.toNat
      · rw [if_pos h2] at hba
        exact absurd hba (by simp)
      · have he : a1 = b1 := charToNat_inj (by omega)
        rw [if_neg h1, if_neg h2] at hab
        rw [if_neg h2, if_neg h1] at hba
        rw [he, charListLt_connex as2 bs hab hba]

theorem strLt_irrefl (a : String) : strLt a a = false := charListLt_irrefl a.data

theorem strLt_trans {a b c : String} (h1 : strLt a b = true)
    (h2 : strLt b c = true) : strLt a c = true :=
  charListLt_trans a.data b.data c.data h1 h2

theorem strLt_connex {a b : String} (h1 : strLt a b = false)
    (h2 : strLt b a = false) : a = b := by
  have hd : a.data = b.data := charListLt_connex a.data b.data h1 h2
  cases a
  cases b
  simp only at hd
  rw [hd]

/-- Strict sortedness of a string list (what setInsert maintains). -/
def SetSorted (l : List String) : Prop :=
  l.Pairwise (fun a b => strLt a b = true)

theorem setInsert_sorted (x : String) :
    ∀ l : List String, SetSorted l → SetSorted (setInsert x l)
  | [], _ => by simp [setInsert, SetSorted]
  | y :: l, h => by
    unfold SetSorted at h
    rw [List.pairwise_cons] at h
    obtain ⟨hy, hl⟩ := h
    unfold setInsert
    by_cases h1 : strLt x y = true
    · rw [if_pos h1]
      unfold SetSorted
      rw [List.pairwise_cons]
      constructor
      · intro z hz
        rw [List.mem_cons] at hz
        rcases hz with rfl | hz
        · exact h1
        · exact strLt_trans h1 (hy z hz)
      · rw [List.pairwise_cons]
        exact ⟨hy, hl⟩
    · rw [if_neg h1]
      by_cases h2 : x = y
      · rw [if_pos h2]
        unfold SetSorted
        rw [List.pairwise_cons]
        exact ⟨hy, hl⟩
      · rw [if_neg h2]
        unfold SetSorted
        rw [List.pairwise_cons]
        constructor
        · intro z hz
          rw [mem_setInsert] at hz
          rcases hz with rfl | hz
          · by_cases h3 : strLt y z = true
            · exact h3
            · exfalso
              exact h2 (strLt_connex (by simpa using h1) (by simpa using h3))
          · exact hy z hz
        · exact setInsert_sorted x l hl

theorem setInsert_length_le (x : String) :
    ∀ l : List String, (setInsert x l).length ≤ l.length + 1
  | [] => by simp [setInsert]
  | y :: l => by
    unfold setInsert
    by_cases h1 : strLt x y = true
    · rw [if_pos h1]; simp
    · rw [if_neg h1]
      by_cases h2 : x = y
      · rw [if_pos h2]; simp
      · rw [if_neg h2]
        have := setInsert_length_le x l
        simp only [List.length_cons]
        omega

theorem setInsert_length_mem (x : String) :
    ∀ l : List String, SetSorted l → x ∈ l → (setInsert x l).length = l.length
  | [], _, hm => by simp at hm
  | y :: l, hs, hm => by
    unfold SetSorted at hs
    rw [List.pairwise_cons] at hs
    obtain ⟨hy, hl⟩ := hs
    unfold setInsert
    by_cases h2 : x = y
    · rw [if_neg (by rw [h2]; simp [strLt_irrefl]), if_pos h2]
    · have hxl : x ∈ l := by
        rw [List.mem_cons] at hm
        tauto
      have hyx : strLt y x = true := hy x hxl
      have h1 : strLt x y = false := by
        by_cases hq : strLt x y = true
        · have := strLt_trans hq hyx
          rw [strLt_irrefl] at this
          exact absurd this (by simp)
        · simpa using hq
      rw [if_neg (by simp [h1]), if_neg h2]
      simp only [List.length_cons]
      rw [setInsert_length_mem x l hl hxl]

theorem setFold_length_le :
    ∀ (l acc : List String),
      (l.foldl (fun a x => setInsert x a) acc).length ≤ acc.length + l.length
  | [], acc => by simp
  | x :: l, acc => by
    simp only [List.foldl_cons, List.length_cons]
    have h1 := setFold_length_le l (setInsert x acc)
    have h2 := setInsert_length_le x acc
    omega

theorem setFold_sorted :
    ∀ (l acc : List String), SetSorted acc →
      SetSorted (l.foldl (fun a x => setInsert x a) acc)
  | [], acc, h => h
  | x :: l, acc, h => by
    simp only [List.foldl_cons]
    exact setFold_sorted l (setInsert x acc) (setInsert_sorted x acc h)

theorem setFold_length_eq_nodup :
    ∀ (l acc : List String), SetSorted acc →
      (l.foldl (fun a x => setInsert x a) acc).length = acc.length + l.length →
      l.Nodup ∧ ∀ x ∈ l, x ∉ acc
  | [], acc, _, _ => ⟨List.nodup_nil, by simp⟩
  | x :: l, acc, hs, hlen => by
    simp only [List.foldl_cons] at hlen
    by_cases hm : x ∈ acc
    · exfalso
      have h1 := setFold_length_le l (setInsert x acc)
      rw [setInsert_length_mem x acc hs hm] at h1
      simp only [List.length_cons] at hlen
      omega
    · have hnew : (setInsert x acc).length = acc.length + 1 := by
        have hle := setInsert_length_le x acc
        have hge : acc.length + 1 ≤ (setInsert x acc).length := by
          by_contra hlt
          push_neg at hlt
          have h1 := setFold_length_le l (setInsert x acc)
          simp only [List.length_cons] at hlen
          omega
        omega
      have ih := setFold_length_eq_nodup l (setInsert x acc)
        (setInsert_sorted x acc hs)
        (by simp only [List.length_cons] at hlen; omega)
      obtain ⟨hnd, hnot⟩ := ih
      constructor
      · rw [List.nodup_cons]
        refine ⟨fun hxl => ?_, hnd⟩
        exact hnot x hxl ((mem_setInsert x x acc).mpr (Or.inl rfl))
      · intro z hz
        rw [List.mem_cons] at hz
        rcases hz with rfl | hz
        · exact hm
        · intro hza
          exact hnot z hz ((mem_setInsert z x acc).mpr (Or.inr hza))

theorem setOfList_length_nodup (l : List String)
    (h : (setOfList l).length = l.length) : l.Nodup :=
  (setFold_length_eq_nodup l [] (by simp [SetSorted]) (by simpa using h)).1

theorem apply_event_schema_reject (e : OrgEngine) (evt : EventEnvelope)
    (h : evt.schema_version ≠ SCHEMA_VERSION) :
    e.apply_event evt = (e, .error .schemaVersionMismatch) := by
  unfold OrgEngine.apply_event
  rw [if_pos h]

theorem apply_event_error_frozen (e : OrgEngine) (evt : EventEnvelope)
    (e2 : OrgEngine) (err : KError)
    (h : e.apply_event evt = (e2, .error err)) :
    e2.state = e.state ∧ e2.last_sequence = e.last_sequence := by
  unfold OrgEngine.apply_event at h
  repeat' split at h
  all_goals
    first
    | (injection h with h1 h2
       subst h1
       exact ⟨rfl, rfl⟩)
    | (injection h with h1 h2
       simp at h2)

theorem apply_event_ok_anatomy (e : OrgEngine) (evt : EventEnvelope)
    (e2 : OrgEngine) (r : TransitionResult)
    (h : e.apply_event evt = (e2, .ok r)) :
    evt.schema_version = SCHEMA_VERSION ∧
    evt.sequence = e.last_sequence + 1 ∧
    (evt.event_type = "initialize_constants" ↔ e.constants_initialized = false) ∧
    ∃ cur ns, e.state = some cur ∧
      transitions_apply_event cur evt = .ok (ns, r) ∧
      validate_invariants ns = .ok () ∧
      e2 = { state := some ns, last_sequence := evt.sequence
             constants_initialized := true } := by
  unfold OrgEngine.apply_event at h
  split at h
  · injection h with h1 h2
    simp at h2
  next hschema =>
  split at h
  · injection h with h1 h2
    simp at h2
  next hseq =>
  split at h
  · injection h with h1 h2
    simp at h2
  next hgate1 =>
  split at h
  · injection h with h1 h2
    simp at h2
  next hgate2 =>
  refine ⟨by simpa using hschema, by simpa using hseq, ?_, ?_⟩
  · constructor
    · intro ht
      by_cases hc : e.constants_initialized
      · exact absurd ⟨hc, ht⟩ hgate2
      · simpa using hc
    · intro hc
      by_cases ht : evt.event_type = "initialize_constants"
      · exact ht
      · exact absurd ⟨by simpa using hc, ht⟩ hgate1
  · split at h
    · injection h with h1 h2
      simp at h2
    next cur hcur =>
      split at h
      · injection h with h1 h2
        simp at h2
      next ns result htrans =>
        split at h
        · injection h with h1 h2
          simp at h2
        next hval =>
          injection h with h1 h2
          injection h2 with h3
          subst h3
          exact ⟨cur, ns, hcur, htrans, hval, h1.symm⟩

theorem apply_event_ok_of (e : OrgEngine) (evt : EventEnvelope)
    (cur ns : OrgState) (r : TransitionResult)
    (h1 : evt.schema_version = SCHEMA_VERSION)
    (h2 : evt.sequence = e.last_sequence + 1)
    (h3 : evt.event_type = "initialize_constants" ↔ e.constants_initialized = false)
    (h4 : e.state = some cur)
    (h5 : transitions_apply_event cur evt = .ok (ns, r))
    (h6 : validate_invariants ns = .ok ()) :
    e.apply_event evt =
      ({ state := some ns, last_sequence := evt.sequence
         constants_initialized := true }, .ok r) := by
  unfold OrgEngine.apply_event
  rw [if_neg (by simp [h1]), if_neg (by simp [h2])]
  rw [if_neg (by
    rintro ⟨hci, ht⟩
    exact ht (h3.mpr (by simpa using hci)))]
  rw [if_neg (by
    rintro ⟨hci, ht⟩
    rw [h3.mp ht] at hci
    simp at hci)]
  rw [h4]
  simp only [h5, h6]

theorem applyAll_anatomy :
    ∀ (evs : List EventEnvelope) (e eng : OrgEngine),
      applyAll e evs = .ok eng →
      (∀ st, e.state = some st → validate_invariants st = .ok ()) →
      e.state.isSome = true →
      eng.state.isSome = true ∧
      (∀ st, eng.state = some st → validate_invariants st = .ok ())
  | [], e, eng, h, hv, hs => by
    unfold applyAll at h
    injection h with h1
    subst h1
    exact ⟨hs, hv⟩
  | evt :: rest, e, eng, h, hv, hs => by
    unfold applyAll at h
    split at h
    next e2 r hstep =>
      obtain ⟨-, -, -, cur, ns, -, -, hval, he2⟩ :=
        apply_event_ok_anatomy e evt e2 r hstep
      refine applyAll_anatomy rest e2 eng h ?_ ?_
      · intro st hst
        rw [he2] at hst
        simp only at hst
        injection hst with hns
        rw [← hns]
        exact hval
      · rw [he2]
        rfl
    next err hstep =>
      exact absurd h (by simp)

theorem reachable_validate (s : OrgState) (h : ReachableState s) :
    validate_invariants s = .ok () := by
  obtain ⟨events, eng, happ, hst⟩ := h
  have hinit : ∀ st, OrgEngine.initial.state = some st →
      validate_invariants st = .ok () := by
    intro st hs
    unfold OrgEngine.initial at hs
    simp only at hs
    injection hs with hs
    rw [← hs]
    rfl
  exact (applyAll_anatomy events OrgEngine.initial eng happ hinit rfl).2 s hst

theorem verify_determinism_of_ok (events : List EventEnvelope)
    (p : OrgState × String) (h : rebuild_state events = .ok p) :
    verify_determinism events = .ok () := by
  unfold verify_determinism
  rw [h]
  show (if p.2 ≠ p.2 then Except.error KError.determinismFailure
    else Except.ok ()) = Except.ok ()
  rw [if_neg (by simp)]

theorem initial_validate :
    ∀ st, OrgEngine.initial.state = some st → validate_invariants st = .ok () := by
  intro st hs
  unfold OrgEngine.initial at hs
  simp only at hs
  injection hs with hs
  rw [← hs]
  rfl

set_option maxHeartbeats 1600000 in
/-- C3: on a freshly initialized engine, the single event
initialize_constants at sequence 1 with default payload succeeds and
produces a state with zero roles and structural_debt 0 whose canonical
serialization is exactly the specified byte string. -/
theorem C3_empty_run :
    (OrgEngine.initial.apply_event initDefaultsEvent).2.map
      (fun r => r.success) = .ok true ∧
    (OrgEngine.initial.apply_event initDefaultsEvent).1.state.map
      (fun st => st.roles) = some [] ∧
    (OrgEngine.initial.apply_event initDefaultsEvent).1.state.map
      (fun st => st.structural_debt) = some 0 ∧
    (OrgEngine.initial.apply_event initDefaultsEvent).1.state.map
      canonical_serialize = some
        "\x7b\"kernel_version\":1,\"roles\":[],\"dependencies\":[],\"constraint_vector\":\x7b\"capital\":50000,\"talent\":50000,\"time\":50000,\"political_cost\":50000\x7d,\"structural_debt\":0,\"scale_stage\":\"seed\"\x7d" :=
  ⟨rfl, rfl, rfl, rfl⟩

/-- C1: for every event list the engine accepts, replays are
deterministic: rebuild_state succeeds, any two replays return the same
canonical serialization and the same lowercase-hex SHA-256 hash, and
verify_determinism reports no failure. -/
theorem C1_replay_determinism (events : List EventEnvelope) (eng : OrgEngine)
    (h : applyAll OrgEngine.initial events = .ok eng) :
    (∃ st hsh, rebuild_state events = .ok (st, hsh)) ∧
    (∀ st1 h1 st2 h2, rebuild_state events = .ok (st1, h1) →
      rebuild_state events = .ok (st2, h2) →
      canonical_serialize st1 = canonical_serialize st2 ∧ h1 = h2) ∧
    verify_determinism events = .ok () := by
  have hsome : eng.state.isSome = true :=
    (applyAll_anatomy events OrgEngine.initial eng h initial_validate rfl).1
  obtain ⟨st, hst⟩ := Option.isSome_iff_exists.mp hsome
  have hreb : rebuild_state events = .ok (st, canonical_hash st) := by
    unfold rebuild_state
    rw [h]
    show (match eng.state with
      | some st => Except.ok (st, canonical_hash st)
      | none => Except.error KError.engineNotInitialized) = _
    rw [hst]
  refine ⟨⟨st, canonical_hash st, hreb⟩, ?_, ?_⟩
  · intro st1 h1 st2 h2 e1 e2
    rw [e1] at e2
    injection e2 with e3
    injection e3 with e4 e5
    exact ⟨by rw [e4], e5⟩
  · exact verify_determinism_of_ok events (st, canonical_hash st) hreb

/-- C1 witness: a concrete accepted event list on which the determinism
check passes. -/
theorem C1_replay_determinism_witness :
    ∃ eng, applyAll OrgEngine.initial [initDefaultsEvent] = .ok eng ∧
      verify_determinism [initDefaultsEvent] = .ok () :=
  ⟨_, rfl, (C1_replay_determinism [initDefaultsEvent] _ rfl).2.2⟩

/-- C4 (amended): the engine accepts an event exactly when the schema is
1, the sequence is last_sequence + 1, the event type is
initialize_constants exactly when the constants-first gate is still open,
the transition handler succeeds, and the new state passes hard invariant
validation; a wrong schema version is rejected before the transition with
the schema error; every rejection leaves committed state and
last_sequence unchanged; success records last_sequence = event.sequence. -/
theorem C4_engine_gates (e : OrgEngine) (evt : EventEnvelope) :
    ((e.apply_event evt).2.isOk = true ↔
      (evt.schema_version = SCHEMA_VERSION ∧
       evt.sequence = e.last_sequence + 1 ∧
       (evt.event_type = "initialize_constants" ↔
         e.constants_initialized = false) ∧
       ∃ cur ns r, e.state = some cur ∧
         transitions_apply_event cur evt = .ok (ns, r) ∧
         validate_invariants ns = .ok ())) ∧
    (evt.schema_version ≠ SCHEMA_VERSION →
      e.apply_event evt = (e, .error .schemaVersionMismatch)) ∧
    (∀ e2 err, e.apply_event evt = (e2, .error err) →
      e2.state = e.state ∧ e2.last_sequence = e.last_sequence) ∧
    (∀ e2 r, e.apply_event evt = (e2, .ok r) →
      e2.last_sequence = evt.sequence ∧ e2.state.isSome = true) := by
  refine ⟨⟨?_, ?_⟩, apply_event_schema_reject e evt,
    apply_event_error_frozen e evt, ?_⟩
  · intro hok
    rcases happ : e.apply_event evt with ⟨e2, ex⟩
    rcases ex with err | r
    · rw [happ] at hok
      simp [Except.isOk, Except.toBool] at hok
    · obtain ⟨h1, h2, h3, cur, ns, h4, h5, h6, -⟩ :=
        apply_event_ok_anatomy e evt e2 r happ
      exact ⟨h1, h2, h3, cur, ns, r, h4, h5, h6⟩
  · rintro ⟨h1, h2, h3, cur, ns, r, h4, h5, h6⟩
    rw [apply_event_ok_of e evt cur ns r h1 h2 h3 h4 h5 h6]
    rfl
  · intro e2 r happ
    obtain ⟨-, -, -, cur, ns, -, -, -, he2⟩ :=
      apply_event_ok_anatomy e evt e2 r happ
    rw [he2]
    exact ⟨rfl, rfl⟩

/-- C4 witness: the amended acceptance condition instantiated on the
initialize_constants event against a fresh engine. -/
theorem C4_engine_gates_witness :
    (OrgEngine.initial.apply_event initDefaultsEvent).2.isOk = true ∧
    initDefaultsEvent.schema_version = SCHEMA_VERSION :=
  ⟨(C4_engine_gates OrgEngine.initial initDefaultsEvent).1.mpr
    ⟨rfl, rfl, by decide, create_initial_state, _, _, rfl, rfl, rfl⟩, rfl⟩

/-- C4 counterexample: an event (add_role with an empty payload at
sequence 2) that satisfies all three gate conditions of the claim yet is
rejected, because its handler fails; so acceptance is not equivalent to
the three gate conditions alone. -/
theorem C4_counterexample :
    ∃ eng : OrgEngine,
      applyAll OrgEngine.initial [initDefaultsEvent] = .ok eng ∧
      badAddEvent.schema_version = SCHEMA_VERSION ∧
      badAddEvent.sequence = eng.last_sequence + 1 ∧
      (badAddEvent.event_type = "initialize_constants" ↔
        eng.constants_initialized = false) ∧
      (eng.apply_event badAddEvent).2.isOk = false :=
  ⟨_, rfl, rfl, rfl, by decide, rfl⟩

/-- C8 counterexample: after add_role then remove_role the state is not
bit-for-bit equal to the post-init state, because the append-only
event_history differs (three entries against one). -/
theorem C8_counterexample :
    ∃ s1 s3 : OrgState,
      (applyAll OrgEngine.initial [initDefaultsEvent]).map
        (fun e => e.state) = .ok (some s1) ∧
      (applyAll OrgEngine.initial
        [initDefaultsEvent, addRoleEventA, removeRoleEventA]).map
        (fun e => e.state) = .ok (some s3) ∧
      s1.event_history.length = 1 ∧
      s3.event_history.length = 3 ∧
      s3 ≠ s1 := by
  refine ⟨_, _, rfl, rfl, rfl, rfl, ?_⟩
  intro hcontra
  have := congrArg (fun st => st.event_history.length) hcontra
  simp only at this
  exact absurd this (by decide)

/-- C8 (amended): after add_role then remove_role the state equals the
post-init state on every canonically serialized field (roles,
dependencies, constraint vector, constants, scale stage, structural
debt), hence its canonical serialization and hash are bit-for-bit those
of the post-init state; only the append-only event_history differs. -/
theorem C8_add_remove_symmetry :
    ∃ s1 s3 : OrgState,
      (applyAll OrgEngine.initial [initDefaultsEvent]).map
        (fun e => e.state) = .ok (some s1) ∧
      (applyAll OrgEngine.initial
        [initDefaultsEvent, addRoleEventA, removeRoleEventA]).map
        (fun e => e.state) = .ok (some s3) ∧
      canonical_serialize s3 = canonical_serialize s1 ∧
      canonical_hash s3 = canonical_hash s1 ∧
      s3.roles = s1.roles ∧
      s3.dependencies = s1.dependencies ∧
      s3.constraint_vector = s1.constraint_vector ∧
      s3.constants = s1.constants ∧
      s3.scale_stage = s1.scale_stage ∧
      s3.structural_debt = s1.structural_debt := by
  refine ⟨_, _, rfl, rfl, ?hser, ?_, rfl, rfl, rfl, rfl, rfl, rfl⟩
  case hser => rfl
  case _ =>
    exact congrArg
      (fun str => String.join ((sha256Bytes (strUtf8 str)).map byteHex))
      (by rfl)

theorem except_bind_ok {ε α β : Type} (a : α) (f : α → Except ε β) :
    (Bind.bind (Except.ok a) f : Except ε β) = f a := rfl

theorem apply_compress_roles_self (s : OrgState) (rid : String) (role : Role)
    (evt : EventEnvelope)
    (hsrc : jAsStr (jIndex evt.payload "source_role_id") = some rid)
    (htgt : jAsStr (jIndex evt.payload "target_role_id") = some rid)
    (hrole : mapLookup s.roles rid = some role)
    (hsize : ¬ ((setOfList (role.responsibilities ++ role.responsibilities)).length : Int) >
      s.constants.compression_max_combined_responsibilities) :
    ∃ ns res, apply_compress_roles s evt = .ok (ns, res) ∧
      mapLookup ns.roles rid = none ∧
      res.compression_executed = true ∧ res.success = true := by
  unfold apply_compress_roles
  simp only [hsrc, htgt, hrole]
  rw [if_neg hsize]
  refine ⟨_, _, rfl, ?_, rfl, rfl⟩
  exact mapLookup_mapErase_self _ rid

/-- C10: a compress_roles event whose source and target are the same
role r (with the combined responsibility count within the limit)
succeeds and removes r from the roles map entirely: the in-place target
update is followed by removal of the source, which is the same entry. -/
theorem C10_compress_self_erases (s : OrgState) (rid : String) (role : Role)
    (evt : EventEnvelope)
    (htype : evt.event_type = "compress_roles")
    (hsrc : jAsStr (jIndex evt.payload "source_role_id") = some rid)
    (htgt : jAsStr (jIndex evt.payload "target_role_id") = some rid)
    (hrole : mapLookup s.roles rid = some role)
    (hsize : ¬ ((setOfList (role.responsibilities ++ role.responsibilities)).length : Int) >
      s.constants.compression_max_combined_responsibilities) :
    ∃ ns res, transitions_apply_event s evt = .ok (ns, res) ∧
      mapLookup ns.roles rid = none ∧
      res.compression_executed = true ∧ res.success = true := by
  obtain ⟨ns, res, happ, hlook, hexec, hsucc⟩ :=
    apply_compress_roles_self s rid role evt hsrc htgt hrole hsize
  unfold transitions_apply_event
  obtain ⟨et, seq, ts, lt, pl, sv⟩ := evt
  simp only at htype
  subst htype
  simp only [happ, except_bind_ok]
  exact ⟨_, _, rfl, hlook, hexec, hsucc⟩

/-- C10 witness: a one-role state compressed into itself loses the role. -/
theorem C10_compress_self_erases_witness :
    jAsStr (jIndex compressSelfEventR.payload "source_role_id") = some "r" ∧
    mapLookup stateSmall.roles "r" = some roleSmall ∧
    ∃ ns res, transitions_apply_event stateSmall compressSelfEventR = .ok (ns, res) ∧
      mapLookup ns.roles "r" = none ∧
      res.compression_executed = true ∧ res.success = true :=
  ⟨rfl, rfl,
    C10_compress_self_erases stateSmall "r" roleSmall compressSelfEventR
      rfl rfl rfl rfl (by decide)⟩

theorem except_bind_error {ε α β : Type} (e : ε) (f : α → Except ε β) :
    (Bind.bind (Except.error e) f : Except ε β) = Except.error e := rfl

theorem except_pure_eq {ε α : Type} (a : α) :
    (pure a : Except ε α) = Except.ok a := rfl

/-- C7: apply_constraint_change adds the four deltas (each defaulting to
0 when absent) to the constraint components with checked addition, and,
given the additions stay in i64 range, fails with the negative-constraint
error exactly when at least one component is below zero after all four
additions; otherwise it succeeds with all four components updated. The
handler works on a copy, so in the error case no successor state is
produced and the caller's state is untouched. -/
theorem C7_constraint_change (s : OrgState) (evt : EventEnvelope)
    (htype : evt.event_type = "apply_constraint_change")
    (h1 : fitsI64 (s.constraint_vector.capital +
      json_i64 evt.payload "capital_delta") = true)
    (h2 : fitsI64 (s.constraint_vector.talent +
      json_i64 evt.payload "talent_delta") = true)
    (h3 : fitsI64 (s.constraint_vector.time +
      json_i64 evt.payload "time_delta") = true)
    (h4 : fitsI64 (s.constraint_vector.political_cost +
      json_i64 evt.payload "political_cost_delta") = true) :
    (transitions_apply_event s evt = .error .negativeConstraint ↔
      (s.constraint_vector.capital + json_i64 evt.payload "capital_delta" < 0 ∨
       s.constraint_vector.talent + json_i64 evt.payload "talent_delta" < 0 ∨
       s.constraint_vector.time + json_i64 evt.payload "time_delta" < 0 ∨
       s.constraint_vector.political_cost +
         json_i64 evt.payload "political_cost_delta" < 0)) ∧
    (¬ (s.constraint_vector.capital + json_i64 evt.payload "capital_delta" < 0 ∨
        s.constraint_vector.talent + json_i64 evt.payload "talent_delta" < 0 ∨
        s.constraint_vector.time + json_i64 evt.payload "time_delta" < 0 ∨
        s.constraint_vector.political_cost +
          json_i64 evt.payload "political_cost_delta" < 0) →
      transitions_apply_event s evt = .ok
        ({ s with
            constraint_vector :=
              { capital := s.constraint_vector.capital +
                  json_i64 evt.payload "capital_delta"
                talent := s.constraint_vector.talent +
                  json_i64 evt.payload "talent_delta"
                time := s.constraint_vector.time +
                  json_i64 evt.payload "time_delta"
                political_cost := s.constraint_vector.political_cost +
                  json_i64 evt.payload "political_cost_delta" }
            event_history := s.event_history ++ [evt.to_dict] },
         { TransitionResult.default with
             event_type := "apply_constraint_change" })) := by
  have hac : apply_constraint_change s evt =
      (if s.constraint_vector.capital + json_i64 evt.payload "capital_delta" < 0 ∨
          s.constraint_vector.talent + json_i64 evt.payload "talent_delta" < 0 ∨
          s.constraint_vector.time + json_i64 evt.payload "time_delta" < 0 ∨
          s.constraint_vector.political_cost +
            json_i64 evt.payload "political_cost_delta" < 0 then
        .error .negativeConstraint
      else
        .ok ({ s with constraint_vector :=
            { capital := s.constraint_vector.capital +
                json_i64 evt.payload "capital_delta"
              talent := s.constraint_vector.talent +
                json_i64 evt.payload "talent_delta"
              time := s.constraint_vector.time +
                json_i64 evt.payload "time_delta"
              political_cost := s.constraint_vector.political_cost +
                json_i64 evt.payload "political_cost_delta" } },
          { TransitionResult.default with
              event_type := "apply_constraint_change" })) := by
    unfold apply_constraint_change checked_add
    simp only [h1, h2, h3, h4, if_true, except_bind_ok, except_pure_eq]
  have htr : ∀ out, apply_constraint_change s evt = out →
      transitions_apply_event s evt = Bind.bind out
        (fun p => (pure ({ p.1 with
          event_history := p.1.event_history ++ [evt.to_dict] }, p.2) :
            Except KError (OrgState × TransitionResult))) := by
    intro out hout
    rw [← hout]
    obtain ⟨et, seq, ts, lt, pl, sv⟩ := evt
    simp only at htype
    subst htype
    rfl
  constructor
  · by_cases hneg : s.constraint_vector.capital +
        json_i64 evt.payload "capital_delta" < 0 ∨
        s.constraint_vector.talent + json_i64 evt.payload "talent_delta" < 0 ∨
        s.constraint_vector.time + json_i64 evt.payload "time_delta" < 0 ∨
        s.constraint_vector.political_cost +
          json_i64 evt.payload "political_cost_delta" < 0
    · rw [if_pos hneg] at hac
      rw [htr _ hac, except_bind_error]
      exact ⟨fun _ => hneg, fun _ => rfl⟩
    · rw [if_neg hneg] at hac
      rw [htr _ hac, except_bind_ok]
      constructor
      · intro hcontra
        rw [except_pure_eq] at hcontra
        exact absurd hcontra (by simp)
      · intro hcontra
        exact absurd hcontra hneg
  · intro hneg
    rw [if_neg hneg] at hac
    rw [htr _ hac, except_bind_ok, except_pure_eq]

/-- C7 witness: a concrete negative-driving delta on the post-init
constraint vector is rejected with the negative-constraint error. -/
theorem C7_constraint_change_witness :
    (fitsI64 (create_initial_state.constraint_vector.capital +
      json_i64 negConstraintEvent.payload "capital_delta") = true) ∧
    transitions_apply_event create_initial_state negConstraintEvent =
      .error .negativeConstraint :=
  ⟨by decide,
    (C7_constraint_change create_initial_state negConstraintEvent rfl
      (by decide) (by decide) (by decide) (by decide)).1.mpr
      (by decide)⟩

theorem transitions_eq_handler (s : OrgState) (evt : EventEnvelope)
    (out : Except KError (OrgState × TransitionResult))
    (hout : (match evt.event_type with
      | "initialize_constants" => apply_initialize_constants s evt
      | "add_role" => apply_add_role s evt
      | "remove_role" => apply_remove_role s evt
      | "differentiate_role" => apply_differentiate_role s evt
      | "compress_roles" => apply_compress_roles s evt
      | "apply_constraint_change" => apply_constraint_change s evt
      | "inject_shock" => apply_inject_shock s evt
      | _ => .error .unknownEventType) = out) :
    transitions_apply_event s evt = Bind.bind out
      (fun p => (pure ({ p.1 with
        event_history := p.1.event_history ++ [evt.to_dict] }, p.2) :
          Except KError (OrgState × TransitionResult))) := by
  rw [← hout]
  rfl

theorem transitions_differentiate (s : OrgState) (evt : EventEnvelope)
    (h : evt.event_type = "differentiate_role") :
    transitions_apply_event s evt = Bind.bind (apply_differentiate_role s evt)
      (fun p => (pure ({ p.1 with
        event_history := p.1.event_history ++ [evt.to_dict] }, p.2) :
          Except KError (OrgState × TransitionResult))) :=
  transitions_eq_handler s evt _ (by rw [h]; rfl)

theorem transitions_inject_shock (s : OrgState) (evt : EventEnvelope)
    (h : evt.event_type = "inject_shock") :
    transitions_apply_event s evt = Bind.bind (apply_inject_shock s evt)
      (fun p => (pure ({ p.1 with
        event_history := p.1.event_history ++ [evt.to_dict] }, p.2) :
          Except KError (OrgState × TransitionResult))) :=
  transitions_eq_handler s evt _ (by rw [h]; rfl)

theorem density_ok_pure (rid : String) (s : OrgState) (d : Int)
    (h : compute_role_structural_density rid s = .ok d) :
    d = role_density_pure rid s := by
  unfold compute_role_structural_density at h
  unfold role_density_pure
  by_cases he : s.dependencies.isEmpty
  · rw [if_pos he] at h
    rw [if_pos he]
    injection h with h
    exact h.symm
  · rw [if_neg he] at h
    rw [if_neg he]
    simp only at h
    by_cases hz : (s.dependencies.length : Int) = 0
    · exfalso
      have hlen : s.dependencies.length = 0 := by exact_mod_cast hz
      have hnil : s.dependencies = [] := List.length_eq_zero.mp hlen
      rw [hnil] at he
      exact he rfl
    · rw [if_neg hz] at h
      unfold checked_mul at h
      split at h
      · rw [except_bind_ok, except_pure_eq, Except.ok.injEq] at h
        exact h.symm
      · rw [except_bind_error] at h
        exact absurd h (by simp)

theorem mapContains_mapAdjust {α : Type} (k k2 : String) (f : α → α) :
    ∀ m : List (String × α),
      mapContains (mapAdjust m k f) k2 = mapContains m k2
  | [] => rfl
  | (pk, pv) :: rest => by
    unfold mapAdjust
    simp only [List.map_cons]
    by_cases h : pk = k
    · rw [if_pos h]
      unfold mapContains mapLookup
      by_cases h2 : k2 = pk
      · simp [h2]
      · rw [if_neg h2, if_neg h2]
        exact mapContains_mapAdjust k k2 f rest
    · rw [if_neg h]
      unfold mapContains mapLookup
      by_cases h2 : k2 = pk
      · simp [h2]
      · rw [if_neg h2, if_neg h2]
        exact mapContains_mapAdjust k k2 f rest

theorem mapLookup_mapAdjust_self {α : Type} (k : String) (f : α → α) :
    ∀ m : List (String × α),
      mapLookup (mapAdjust m k f) k = (mapLookup m k).map f
  | [] => rfl
  | (pk, pv) :: rest => by
    unfold mapAdjust
    simp only [List.map_cons]
    by_cases h : pk = k
    · rw [if_pos h]
      unfold mapLookup
      rw [if_pos h.symm, if_pos h.symm]
      rfl
    · rw [if_neg h]
      unfold mapLookup
      rw [if_neg (fun hh => h hh.symm), if_neg (fun hh => h hh.symm)]
      exact mapLookup_mapAdjust_self k f rest

theorem foldl_ite_filter {α β : Type} (p : α → Bool) (g : β → α → β) :
    ∀ (l : List α) (init : β),
      l.foldl (fun a x => if p x then g a x else a) init =
        (l.filter p).foldl g init
  | [], _ => rfl
  | x :: l, init => by
    simp only [List.foldl_cons, List.filter_cons]
    by_cases h : p x = true
    · rw [if_pos h, if_pos h]
      simp only [List.foldl_cons]
      exact foldl_ite_filter p g l (g init x)
    · rw [if_neg h, if_neg h]
      exact foldl_ite_filter p g l init

theorem secondaryFold_ok_pure (roles : List (String × Role)) (orig : OrgState)
    (mag : Int) :
    ∀ (lst : List String) (acc out : Int),
      secondaryFold roles orig mag lst acc = .ok out →
      out = lst.foldl (fun a cid =>
        if mapContains roles cid then a + max (mag * role_density_pure cid orig) 1
        else a) acc
  | [], acc, out, h => by
    unfold secondaryFold at h
    injection h with h
    rw [← h]
    rfl
  | cid :: rest, acc, out, h => by
    unfold secondaryFold at h
    simp only [List.foldl_cons]
    by_cases hc : mapContains roles cid = true
    · rw [if_pos hc] at h
      rw [if_pos hc]
      rcases hdens : compute_role_structural_density cid orig with e | d
      · rw [hdens, except_bind_error] at h
        exact absurd h (by simp)
      · rw [hdens, except_bind_ok] at h
        unfold checked_mul at h
        split at h
        · rw [except_bind_ok] at h
          unfold checked_add at h
          split at h
          · rw [except_bind_ok] at h
            have := secondaryFold_ok_pure roles orig mag rest _ _ h
            rw [this, density_ok_pure cid orig d hdens]
          · rw [except_bind_error] at h
            exact absurd h (by simp)
        · rw [except_bind_error] at h
          exact absurd h (by simp)
    · rw [if_neg (by simpa using hc)] at h
      rw [if_neg hc]
      exact secondaryFold_ok_pure roles orig mag rest _ _ h

/-- C6: inject_shock computes the target's local density from the
pre-event state, adds primary debt max(1, magnitude * (base multiplier +
target density)) plus the secondary debt summed over the deduplicated
connected roles, max(1, magnitude * neighbour density) each, and
deactivates the target exactly when the magnitude exceeds the
deactivation threshold. -/
theorem C6_inject_shock (s : OrgState) (evt : EventEnvelope) (tid : String)
    (mag : Int) (ns : OrgState) (res : TransitionResult)
    (htype : evt.event_type = "inject_shock")
    (htid : jAsStr (jIndex evt.payload "target_role_id") = some tid)
    (hmag : jAsI64 (jIndex evt.payload "magnitude") = some mag)
    (hap : transitions_apply_event s evt = .ok (ns, res)) :
    res.target_density = role_density_pure tid s ∧
    res.primary_debt = max (mag * (s.constants.shock_debt_base_multiplier +
      role_density_pure tid s)) 1 ∧
    res.secondary_debt = secondary_pure s tid mag ∧
    ns.structural_debt = s.structural_debt + res.primary_debt + res.secondary_debt ∧
    res.success = true ∧
    (res.deactivated = true ↔ mag > s.constants.shock_deactivation_threshold) ∧
    (mag > s.constants.shock_deactivation_threshold →
      mapLookup ns.roles tid =
        (mapLookup s.roles tid).map (fun r => { r with active := false })) ∧
    (¬ mag > s.constants.shock_deactivation_threshold → ns.roles = s.roles) := by
  rw [transitions_inject_shock s evt htype] at hap
  rcases hish : apply_inject_shock s evt with e | p
  · rw [hish, except_bind_error] at hap
    exact absurd hap (by simp)
  obtain ⟨p1, p2⟩ := p
  rw [hish, except_bind_ok, except_pure_eq, Except.ok.injEq, Prod.mk.injEq] at hap
  obtain ⟨hns, hres⟩ := hap
  unfold apply_inject_shock at hish
  simp only [htid, hmag] at hish
  cases hcont : mapContains s.roles tid with
  | false =>
    rw [hcont] at hish
    simp at hish
  | true =>
    rw [hcont] at hish
    simp only [Bool.not_true, Bool.false_eq_true, if_false] at hish
    rcases hdens : compute_role_structural_density tid s with e | td
    · rw [hdens, except_bind_error] at hish
      exact absurd hish (by simp)
    rw [hdens, except_bind_ok] at hish
    have htd : td = role_density_pure tid s := density_ok_pure tid s td hdens
    unfold checked_add at hish
    split at hish
    case isFalse => rw [except_bind_error] at hish; exact absurd hish (by simp)
    rw [except_bind_ok] at hish
    unfold checked_mul at hish
    split at hish
    case isFalse => rw [except_bind_error] at hish; exact absurd hish (by simp)
    rw [except_bind_ok] at hish
    split at hish
    case isFalse => rw [except_bind_error] at hish; exact absurd hish (by simp)
    rw [except_bind_ok] at hish
    rcases hsf : secondaryFold
        (if mag > s.constants.shock_deactivation_threshold then
          mapAdjust s.roles tid (fun r => { r with active := false })
         else s.roles) s mag (connectedIds s.dependencies tid) 0 with e | sd
    · rw [hsf, except_bind_error] at hish
      exact absurd hish (by simp)
    rw [hsf, except_bind_ok] at hish
    split at hish
    case isFalse => rw [except_bind_error] at hish; exact absurd hish (by simp)
    rw [except_bind_ok, except_pure_eq, Except.ok.injEq, Prod.mk.injEq] at hish
    obtain ⟨hp1, hp2⟩ := hish
    have hsd : sd = secondary_pure s tid mag := by
      have h1 := secondaryFold_ok_pure _ s mag _ _ _ hsf
      unfold secondary_pure
      rw [h1]
      have hpt : ∀ cid, mapContains
          (if mag > s.constants.shock_deactivation_threshold then
            mapAdjust s.roles tid (fun r => { r with active := false })
           else s.roles) cid = mapContains s.roles cid := by
        intro cid
        by_cases hde : mag > s.constants.shock_deactivation_threshold
        · rw [if_pos hde, mapContains_mapAdjust]
        · rw [if_neg hde]
      simp only [hpt]
      rw [foldl_ite_filter]
    refine ⟨?_, ?_, ?_, ?_, ?_, ?_, ?_, ?_⟩
    · rw [← hres, ← hp2, htd]
    · rw [← hres, ← hp2, htd]
    · rw [← hres, ← hp2, hsd]
    · rw [← hns, ← hres, ← hp1, ← hp2]
    · rw [← hres, ← hp2]
    · rw [← hres, ← hp2]
      simp only [decide_eq_true_eq]
    · intro hde
      rw [← hns, ← hp1]
      simp only
      rw [if_pos hde, mapLookup_mapAdjust_self]
    · intro hde
      rw [← hns, ← hp1]
      simp only
      rw [if_neg hde]

/-- C6 witness: the concrete magnitude-10 shock at target t (density
2000, one real neighbour of density 1000, base multiplier 1, threshold
8) yields primary debt 20010, secondary debt 10000, a debt increase of
30010 and deactivates the target. -/
theorem C6_inject_shock_witness :
    ∃ ns res,
      transitions_apply_event shockState shockEvent = .ok (ns, res) ∧
      res.target_density = 2000 ∧
      res.primary_debt = 20010 ∧
      res.secondary_debt = 10000 ∧
      ns.structural_debt = shockState.structural_debt + 30010 ∧
      res.deactivated = true ∧
      mapLookup ns.roles "t" =
        (mapLookup shockState.roles "t").map (fun r => { r with active := false }) := by
  rcases hok : transitions_apply_event shockState shockEvent with e | ⟨ns, res⟩
  · have hisok : (transitions_apply_event shockState shockEvent).isOk = true := rfl
    rw [hok] at hisok
    simp [Except.isOk, Except.toBool] at hisok
  have h := C6_inject_shock shockState shockEvent "t" 10 ns res rfl rfl rfl hok
  refine ⟨ns, res, rfl, ?_, ?_, ?_, ?_, ?_, ?_⟩
  · rw [h.1]; decide
  · rw [h.2.1]; decide
  · rw [h.2.2.1]; decide
  · rw [h.2.2.2.1, h.2.1, h.2.2.1]; decide
  · exact h.2.2.2.2.2.1.mpr (by decide)
  · exact h.2.2.2.2.2.2.1 (by decide)

/-- C5: differentiate_role on an existing role takes exactly one of three
ordered outcomes: (1) responsibilities within the threshold: skipped,
state unchanged but for the history append; (2) capacity index below the
minimum: suppressed, structural_debt grows by exactly the configured
increment; (3) otherwise the event fails unless a non-empty new_roles
array is present, in which case the parent is removed and the sub-roles
are inserted in list order; sub-roles inherit the parent's scale_stage
always, and its purpose and required_inputs when omitted. -/
theorem C5_differentiate (s : OrgState) (evt : EventEnvelope) (rid : String)
    (role : Role)
    (htype : evt.event_type = "differentiate_role")
    (hrid : jAsStr (jIndex evt.payload "role_id") = some rid)
    (hrole : mapLookup s.roles rid = some role) :
    ((role.responsibilities.length : Int) ≤ s.constants.differentiation_threshold →
      transitions_apply_event s evt =
        .ok ({ s with event_history := s.event_history ++ [evt.to_dict] },
          { TransitionResult.default with
              event_type := "differentiate_role"
              differentiation_skipped := true
              reason := "responsibilities=" ++ toString role.responsibilities.length ++
                " <= differentiation_threshold=" ++
                toString s.constants.differentiation_threshold })) ∧
    (∀ cap : Int,
      (role.responsibilities.length : Int) > s.constants.differentiation_threshold →
      s.constraint_vector.organizational_capacity_index = .ok cap →
      cap < s.constants.differentiation_min_capacity →
      fitsI64 (s.structural_debt +
        s.constants.suppressed_differentiation_debt_increment) = true →
      transitions_apply_event s evt =
        .ok ({ s with
                structural_debt := s.structural_debt +
                  s.constants.suppressed_differentiation_debt_increment,
                event_history := s.event_history ++ [evt.to_dict] },
          { TransitionResult.default with
              event_type := "differentiate_role"
              suppressed_differentiation := true
              reason := "capacity=" ++ toString cap ++
                " < differentiation_min_capacity=" ++
                toString s.constants.differentiation_min_capacity })) ∧
    (∀ cap : Int,
      (role.responsibilities.length : Int) > s.constants.differentiation_threshold →
      s.constraint_vector.organizational_capacity_index = .ok cap →
      cap ≥ s.constants.differentiation_min_capacity →
      (((jGet evt.payload "new_roles").bind jAsArr = none ∨
        (jGet evt.payload "new_roles").bind jAsArr = some []) →
        transitions_apply_event s evt = .error .missingNewRoles) ∧
      (∀ specs roles2,
        (jGet evt.payload "new_roles").bind jAsArr = some specs →
        specs ≠ [] →
        insertSubRoles role specs (mapErase s.roles rid) = .ok roles2 →
        transitions_apply_event s evt =
          .ok ({ s with
                  roles := roles2,
                  event_history := s.event_history ++ [evt.to_dict] },
            { TransitionResult.default with
                event_type := "differentiate_role"
                differentiation_executed := true }))) ∧
    (∀ nr sub, buildSubRole role nr = .ok sub →
      sub.scale_stage = role.scale_stage ∧
      ((jGet nr "purpose").bind jAsStr = none → sub.purpose = role.purpose) ∧
      (((jGet nr "required_inputs").isSome &&
          jIsArr (jIndex nr "required_inputs")) = false →
        sub.required_inputs = sortStr role.required_inputs) ∧
      sub.active = true) := by
  have htr := transitions_differentiate s evt htype
  refine ⟨?_, ?_, ?_, ?_⟩
  · intro hle
    have happ : apply_differentiate_role s evt =
        .ok (s, { TransitionResult.default with
              event_type := "differentiate_role"
              differentiation_skipped := true
              reason := "responsibilities=" ++ toString role.responsibilities.length ++
                " <= differentiation_threshold=" ++
                toString s.constants.differentiation_threshold }) := by
      unfold apply_differentiate_role
      simp only [hrid, hrole]
      rw [if_neg (not_lt.mpr hle), except_pure_eq]
    rw [htr, happ, except_bind_ok, except_pure_eq]
  · intro cap hgt hcap hlt hfit
    have happ : apply_differentiate_role s evt =
        .ok ({ s with structural_debt := s.structural_debt +
                s.constants.suppressed_differentiation_debt_increment },
          { TransitionResult.default with
              event_type := "differentiate_role"
              suppressed_differentiation := true
              reason := "capacity=" ++ toString cap ++
                " < differentiation_min_capacity=" ++
                toString s.constants.differentiation_min_capacity }) := by
      unfold apply_differentiate_role checked_add
      simp only [hrid, hrole]
      rw [if_pos hgt, hcap, except_bind_ok, if_neg (not_le.mpr hlt),
        if_pos hfit, except_bind_ok, except_pure_eq]
    rw [htr, happ, except_bind_ok, except_pure_eq]
  · intro cap hgt hcap hge
    constructor
    · intro hnr
      have happ : apply_differentiate_role s evt = .error .missingNewRoles := by
        unfold apply_differentiate_role
        simp only [hrid, hrole]
        rw [if_pos hgt, hcap, except_bind_ok, if_pos hge]
        rcases hnr with hnr | hnr
        · rw [hnr]
        · rw [hnr]
          simp [List.isEmpty]
      rw [htr, happ, except_bind_error]
    · intro specs roles2 hspecs hne hins
      have hie : specs.isEmpty = false := by
        cases specs
        · exact absurd rfl hne
        · rfl
      have happ : apply_differentiate_role s evt =
          .ok ({ s with roles := roles2 },
            { TransitionResult.default with
                event_type := "differentiate_role"
                differentiation_executed := true }) := by
        unfold apply_differentiate_role
        simp only [hrid, hrole]
        rw [if_pos hgt, hcap, except_bind_ok, if_pos hge, hspecs]
        simp only [hie, Bool.false_eq_true, if_false]
        rw [hins, except_bind_ok, except_pure_eq]
      rw [htr, happ, except_bind_ok, except_pure_eq]
  · intro nr sub hb
    unfold buildSubRole at hb
    rcases hid : jAsStr (jIndex nr "id") with _ | sub_id
    · rw [hid] at hb
      exact absurd hb (by simp)
    rw [hid] at hb
    simp only at hb
    rcases hv : validate_role_id sub_id with e | u
    · rw [hv, except_bind_error] at hb
      exact absurd hb (by simp)
    rw [hv, except_bind_ok] at hb
    rcases hname : jAsStr (jIndex nr "name") with _ | name
    · rw [hname] at hb
      exact absurd hb (by simp)
    rw [hname] at hb
    simp only at hb
    rw [except_pure_eq, Except.ok.injEq] at hb
    subst hb
    refine ⟨rfl, ?_, ?_, rfl⟩
    · intro hp
      simp only [hp, Option.getD_none]
    · intro hni
      simp only [hni, Bool.false_eq_true, if_false]

/-- C5 witness: role r with one responsibility against the default
threshold 3 takes the skipped branch and leaves the roles unchanged. -/
theorem C5_differentiate_witness :
    ∃ pr : OrgState × TransitionResult,
      transitions_apply_event stateSmall diffEventR = .ok pr ∧
      pr.2.differentiation_skipped = true ∧
      pr.1.roles = stateSmall.roles ∧
      pr.1.structural_debt = stateSmall.structural_debt := by
  have h := (C5_differentiate stateSmall diffEventR "r" roleSmall rfl rfl rfl).1
    (by decide)
  exact ⟨_, h, rfl, rfl, rfl⟩

theorem filterMap_jAsStr_map_str :
    ∀ xs : List String, (xs.map Json.str).filterMap jAsStr = xs
  | [] => rfl
  | x :: xs => by
    simp only [List.map_cons, List.filterMap_cons, jAsStr,
      filterMap_jAsStr_map_str xs]

theorem filterMap_jAsStr_comp (xs : List String) :
    List.filterMap (jAsStr ∘ Json.str) xs = xs := by
  induction xs with
  | nil => rfl
  | cons x xs ih =>
    simp only [List.filterMap_cons, Function.comp, jAsStr, ih]

theorem jAsU64_int_natCast (n : Nat) (h : n < 2 ^ 64) :
    jAsU64 (.int (n : Int)) = some n := by
  have he : jAsU64 (.int (n : Int)) =
      if 0 ≤ (n : Int) ∧ (n : Int) < 2 ^ 64 then some (n : Int).toNat
      else none := rfl
  rw [he, if_pos ⟨Int.natCast_nonneg n, by exact_mod_cast h⟩]
  simp

theorem jAsI64_int (n : Int) (h : fitsI64 n = true) :
    jAsI64 (.int n) = some n := by
  have he : jAsI64 (.int n) = if fitsI64 n then some n else none := rfl
  rw [he, if_pos h]

theorem json_to_proto_role_addRolePayload (r : ProtoRole)
    (h : r.active = true) : json_to_proto_role (addRolePayload r) = r := by
  obtain ⟨id, name, purpose, resp, req, prod, stage, active⟩ := r
  simp only at h
  subst h
  simp [json_to_proto_role, addRolePayload, jGet, jIndex, jAsStr, jAsArr,
    jAsBool, List.find?, filterMap_jAsStr_comp, filterMap_jAsStr_map_str]

theorem json_to_proto_role_newRolePayload (r : ProtoRole)
    (ha : r.active = true) (hs : r.scale_stage = "seed") :
    json_to_proto_role (newRolePayload r) = r := by
  obtain ⟨id, name, purpose, resp, req, prod, stage, active⟩ := r
  simp only at ha hs
  subst ha
  subst hs
  simp [json_to_proto_role, newRolePayload, jGet, jIndex, jAsStr, jAsArr,
    jAsBool, List.find?, filterMap_jAsStr_comp, filterMap_jAsStr_map_str]

theorem map_json_to_proto_role_newRolePayload (nrs : List ProtoRole)
    (hl : ∀ r ∈ nrs, r.active = true ∧ r.scale_stage = "seed") :
    (nrs.map newRolePayload).map json_to_proto_role = nrs := by
  induction nrs with
  | nil => rfl
  | cons a t ih =>
    simp only [List.map_cons]
    rw [json_to_proto_role_newRolePayload a (hl a (by simp)).1
        (hl a (by simp)).2,
      ih (fun r hr => hl r (by simp [hr]))]

/-- C9 counterexample: an AddRole wire envelope whose role is inactive
does not survive the round trip, because the payload mapping drops the
active flag and the reverse direction defaults it to true. -/
theorem C9_counterexample :
    (proto_to_kernel inactiveAddWire).bind kernel_to_proto ≠
      some inactiveAddWire := by decide

/-- C9 (amended): the codec round-trips exactly on the lossless wire
envelopes: sequence, logical_time, the kind and all carried payload
fields come back unchanged, provided AddRole roles are active,
DifferentiateRole sub-roles are active with scale_stage seed, and the
numeric fields lie in their machine ranges. -/
theorem C9_codec_roundtrip (w : ProtoEventEnvelope) (ev : ProtoEvent)
    (kind : EventKind) (hev : w.event = some ev) (hk : ev.kind = some kind)
    (hl : losslessKind kind) :
    (proto_to_kernel w).bind kernel_to_proto = some w := by
  obtain ⟨seq, lt, event⟩ := w
  simp only at hev
  subst hev
  obtain ⟨k⟩ := ev
  simp only at hk
  subst hk
  cases kind with
  | addRole ar =>
    obtain ⟨orole⟩ := ar
    obtain ⟨r, hr, hact⟩ := hl
    simp only at hr
    subst hr
    show some (ProtoEventEnvelope.mk seq lt (some (ProtoEvent.mk (some
        (.addRole ⟨some (json_to_proto_role (addRolePayload r))⟩))))) =
      some (ProtoEventEnvelope.mk seq lt (some (ProtoEvent.mk (some
        (.addRole ⟨some r⟩)))))
    rw [json_to_proto_role_addRolePayload r hact]
  | removeRole rr => rfl
  | differentiateRole dr =>
    obtain ⟨rid, nrs⟩ := dr
    show some (ProtoEventEnvelope.mk seq lt (some (ProtoEvent.mk (some
        (.differentiateRole ⟨rid,
          (nrs.map newRolePayload).map json_to_proto_role⟩))))) =
      some (ProtoEventEnvelope.mk seq lt (some (ProtoEvent.mk (some
        (.differentiateRole ⟨rid, nrs⟩)))))
    rw [map_json_to_proto_role_newRolePayload nrs hl]
  | compressRoles cr => rfl
  | applyConstraintChange ac =>
    obtain ⟨cd, td, tmd, pd⟩ := ac
    obtain ⟨h1, h2, h3, h4⟩ := hl
    show some (ProtoEventEnvelope.mk seq lt (some (ProtoEvent.mk (some
        (.applyConstraintChange
          ⟨(jAsI64 (.int cd)).getD 0, (jAsI64 (.int td)).getD 0,
           (jAsI64 (.int tmd)).getD 0, (jAsI64 (.int pd)).getD 0⟩))))) =
      some (ProtoEventEnvelope.mk seq lt (some (ProtoEvent.mk (some
        (.applyConstraintChange ⟨cd, td, tmd, pd⟩)))))
    rw [jAsI64_int cd h1, jAsI64_int td h2, jAsI64_int tmd h3,
      jAsI64_int pd h4]
    simp only [Option.getD_some]
  | injectShock sh =>
    obtain ⟨tid, mag⟩ := sh
    simp only [losslessKind] at hl
    show some (ProtoEventEnvelope.mk seq lt (some (ProtoEvent.mk (some
        (.injectShock ⟨tid, ((jAsU64 (.int (mag : Int))).getD 0) % 2 ^ 32⟩))))) =
      some (ProtoEventEnvelope.mk seq lt (some (ProtoEvent.mk (some
        (.injectShock ⟨tid, mag⟩)))))
    rw [jAsU64_int_natCast mag (by omega)]
    simp only [Option.getD_some]
    rw [Nat.mod_eq_of_lt hl]
  | initializeConstants ic =>
    obtain ⟨oc⟩ := ic
    obtain ⟨c, hc, hb1, hb2, hb3, hb4, hb5, hb6⟩ := hl
    simp only at hc
    subst hc
    obtain ⟨dt, mc, cm, sdt, sbm, sdi⟩ := c
    simp only at hb1 hb2 hb3 hb4 hb5 hb6
    show some (ProtoEventEnvelope.mk seq lt (some (ProtoEvent.mk (some
        (.initializeConstants ⟨some
          ⟨((jAsU64 (.int (dt : Int))).getD 3) % 2 ^ 32,
           (jAsI64 (.int mc)).getD 60000,
           ((jAsU64 (.int (cm : Int))).getD 5) % 2 ^ 32,
           ((jAsU64 (.int (sdt : Int))).getD 8) % 2 ^ 32,
           ((jAsU64 (.int (sbm : Int))).getD 1) % 2 ^ 32,
           ((jAsU64 (.int (sdi : Int))).getD 1) % 2 ^ 32⟩⟩))))) =
      some (ProtoEventEnvelope.mk seq lt (some (ProtoEvent.mk (some
        (.initializeConstants ⟨some ⟨dt, mc, cm, sdt, sbm, sdi⟩⟩)))))
    rw [jAsU64_int_natCast dt (by omega), jAsU64_int_natCast cm (by omega),
      jAsU64_int_natCast sdt (by omega), jAsU64_int_natCast sbm (by omega),
      jAsU64_int_natCast sdi (by omega), jAsI64_int mc hb2]
    simp only [Option.getD_some]
    rw [Nat.mod_eq_of_lt hb1, Nat.mod_eq_of_lt hb3, Nat.mod_eq_of_lt hb4,
      Nat.mod_eq_of_lt hb5, Nat.mod_eq_of_lt hb6]

/-- C9 witness: a CompressRoles wire envelope (a lossless kind) is
returned unchanged by the round trip. -/
theorem C9_codec_roundtrip_witness :
    (proto_to_kernel compressWire).bind kernel_to_proto =
      some compressWire :=
  C9_codec_roundtrip compressWire _ _ rfl rfl trivial

theorem validate_parts (s : OrgState) (h : validate_invariants s = .ok ()) :
    check_role_id_format s = .ok () ∧ check_dependency_refs s = .ok () ∧
    check_orphaned_outputs s = .ok () ∧ check_duplicate_role_ids s = .ok () ∧
    check_at_least_one_active_role s = .ok () ∧
    check_no_empty_responsibilities s = .ok () ∧
    check_no_critical_cycles s = .ok () := by
  unfold validate_invariants at h
  rcases h1 : check_role_id_format s with e | u
  · rw [h1, except_bind_error] at h; exact absurd h (by simp)
  cases u
  rw [h1, except_bind_ok] at h
  rcases h2 : check_dependency_refs s with e | u
  · rw [h2, except_bind_error] at h; exact absurd h (by simp)
  cases u
  rw [h2, except_bind_ok] at h
  rcases h3 : check_orphaned_outputs s with e | u
  · rw [h3, except_bind_error] at h; exact absurd h (by simp)
  cases u
  rw [h3, except_bind_ok] at h
  rcases h4 : check_duplicate_role_ids s with e | u
  · rw [h4, except_bind_error] at h; exact absurd h (by simp)
  cases u
  rw [h4, except_bind_ok] at h
  rcases h5 : check_at_least_one_active_role s with e | u
  · rw [h5, except_bind_error] at h; exact absurd h (by simp)
  cases u
  rw [h5, except_bind_ok] at h
  rcases h6 : check_no_empty_responsibilities s with e | u
  · rw [h6, except_bind_error] at h; exact absurd h (by simp)
  cases u
  rw [h6, except_bind_ok] at h
  exact ⟨rfl, rfl, rfl, rfl, rfl, rfl, h⟩

theorem check_role_id_format_sem (s : OrgState)
    (h : check_role_id_format s = .ok ()) : InvRoleIdFormat s := by
  unfold check_role_id_format at h
  by_cases hc : s.roles.all (fun p => isValidRoleId p.1) = true
  · intro p hp
    have := (List.all_eq_true.mp hc) p hp
    unfold isValidRoleId at this
    rw [Bool.and_eq_true] at this
    obtain ⟨hne, hall⟩ := this
    constructor
    · intro hemp
      rw [hemp] at hne
      exact absurd hne (by decide)
    · intro c hcm
      exact List.all_eq_true.mp hall c hcm
  · rw [if_neg hc] at h
    exact absurd h (by simp)

theorem check_dependency_refs_sem (s : OrgState)
    (h : check_dependency_refs s = .ok ()) : InvDependencyRefs s := by
  unfold check_dependency_refs at h
  by_cases hc : s.dependencies.all
      (fun d => mapContains s.roles d.from_role_id &&
                mapContains s.roles d.to_role_id) = true
  · intro e he
    have := (List.all_eq_true.mp hc) e he
    rw [Bool.and_eq_true] at this
    exact ⟨(mapContains_iff_mem_keys _ _).mp this.1,
      (mapContains_iff_mem_keys _ _).mp this.2⟩
  · rw [if_neg hc] at h
    exact absurd h (by simp)

theorem check_orphaned_outputs_sem (s : OrgState)
    (h : check_orphaned_outputs s = .ok ()) : InvOrphanedOutputs s := by
  unfold check_orphaned_outputs at h
  by_cases hc : s.roles.all
      (fun p => p.2.produced_outputs.all
        (fun out => (allInputsSet s).contains out)) = true
  · intro p hp out hout
    have h1 := List.all_eq_true.mp (List.all_eq_true.mp hc p hp) out hout
    have hmem : out ∈ allInputsSet s := by simpa using h1
    unfold allInputsSet at hmem
    rw [mem_setOfList, List.mem_flatMap] at hmem
    obtain ⟨q, hq, hin⟩ := hmem
    exact ⟨q, hq, hin⟩
  · rw [if_neg hc] at h
    exact absurd h (by simp)

theorem check_duplicate_role_ids_sem (s : OrgState)
    (h : check_duplicate_role_ids s = .ok ()) : InvUniqueIds s := by
  unfold check_duplicate_role_ids at h
  by_cases hc : (setOfList (s.roles.map Prod.fst)).length =
      (s.roles.map Prod.fst).length
  · exact setOfList_length_nodup _ hc
  · rw [if_neg hc] at h
    exact absurd h (by simp)

theorem check_at_least_one_active_role_sem (s : OrgState)
    (h : check_at_least_one_active_role s = .ok ()) : InvActiveRole s := by
  unfold check_at_least_one_active_role at h
  intro hne
  by_cases he : s.roles.isEmpty = true
  · exact absurd (List.isEmpty_iff.mp he) hne
  rw [if_neg he] at h
  by_cases ha : s.roles.any (fun p => p.2.active) = true
  · obtain ⟨p, hp, hact⟩ := List.any_eq_true.mp ha
    exact ⟨p, hp, hact⟩
  · rw [if_neg ha] at h
    exact absurd h (by simp)

theorem check_no_empty_responsibilities_sem (s : OrgState)
    (h : check_no_empty_responsibilities s = .ok ()) :
    InvNonemptyResponsibilities s := by
  unfold check_no_empty_responsibilities at h
  by_cases hc : s.roles.all (fun p => !p.2.responsibilities.isEmpty) = true
  · intro p hp hemp
    have := List.all_eq_true.mp hc p hp
    rw [hemp] at this
    exact absurd this (by decide)
  · rw [if_neg hc] at h
    exact absurd h (by simp)

theorem ScannedOk_mono (deps : List DependencyEdge) (col col2 : ColMap) :
    ∀ (above above2 : List String) (stack : List (String × Nat)),
      (∀ w, colGet col w = 2 → colGet col2 w = 2) →
      (∀ w, colGet col w = 1 → colGet col2 w = 1 ∨ colGet col2 w = 2) →
      (∀ w, w ∈ above → w ∈ above2 ∨ colGet col2 w = 2) →
      ScannedOk deps col above stack → ScannedOk deps col2 above2 stack
  | _, _, [], _, _, _, _ => trivial
  | above, above2, (n, k) :: rest, hb, hg, ha, hs => by
    obtain ⟨htop, hrest⟩ := hs
    refine ⟨?_, ScannedOk_mono deps col col2 (n :: above) (n :: above2) rest
      hb hg ?_ hrest⟩
    · intro v hv
      rcases htop v hv with h2 | ⟨h1, hab⟩
      · exact Or.inl (hb v h2)
      · rcases hg v h1 with hg1 | hg2
        · rcases ha v hab with hab2 | h2
          · exact Or.inr ⟨hg1, hab2⟩
          · exact Or.inl h2
        · exact Or.inl hg2
    · intro w hw
      rcases List.mem_cons.mp hw with h | h
      · exact Or.inl (List.mem_cons.mpr (Or.inl h))
      · rcases ha w h with h2 | h2
        · exact Or.inl (List.mem_cons.mpr (Or.inr h2))
        · exact Or.inr h2

theorem black_closed_reflTransGen (deps : List DependencyEdge) (col : ColMap)
    (hcl : ∀ u v, colGet col u = 2 → EdgeStep deps u v → colGet col v = 2)
    {a b : String} (hb : colGet col a = 2)
    (h : Relation.ReflTransGen (EdgeStep deps) a b) : colGet col b = 2 := by
  induction h with
  | refl => exact hb
  | tail hst hstep ih => exact hcl _ _ ih hstep

theorem transGen_head_decomp {α : Type} (r : α → α → Prop) {a b : α}
    (h : Relation.TransGen r a b) :
    ∃ c, r a c ∧ Relation.ReflTransGen r c b := by
  induction h with
  | single h1 => exact ⟨_, h1, Relation.ReflTransGen.refl⟩
  | tail h1 h2 ih =>
    obtain ⟨c, hc, hr⟩ := ih
    exact ⟨c, hc, hr.tail h2⟩

theorem dfsLoopF_cycles_mono (deps : List DependencyEdge) :
    ∀ (fuel : Nat) (col : ColMap) (stack : List (String × Nat))
      (cycles : List (List String)),
      ∃ tail, (dfsLoopF deps fuel col stack cycles).2 = cycles ++ tail
  | fuel, col, [], cycles => ⟨[], by cases fuel <;> simp [dfsLoopF]⟩
  | 0, col, (n, i) :: rest, cycles => ⟨[], by simp [dfsLoopF]⟩
  | fuel + 1, col, (node, idx) :: rest, cycles => by
    rw [dfsLoopF_succ_unfold]
    by_cases h : idx < (adjGet deps node).length
    · rw [dif_pos h]
      by_cases h1 : colGet col ((adjGet deps node).get ⟨idx, h⟩) = 1
      · rw [if_pos h1]
        obtain ⟨t, ht⟩ := dfsLoopF_cycles_mono deps fuel col
          ((node, idx+1) :: rest)
          (cycles ++ [(adjGet deps node).get ⟨idx, h⟩ ::
            takeToNbr ((adjGet deps node).get ⟨idx, h⟩) ((node, idx+1) :: rest)])
        refine ⟨((adjGet deps node).get ⟨idx, h⟩ ::
          takeToNbr ((adjGet deps node).get ⟨idx, h⟩)
            ((node, idx+1) :: rest)) :: t, ?_⟩
        rw [ht, List.append_assoc]
        rfl
      · rw [if_neg h1]
        by_cases h0 : colGet col ((adjGet deps node).get ⟨idx, h⟩) = 0
        · rw [if_pos h0]
          exact dfsLoopF_cycles_mono deps fuel _ _ cycles
        · rw [if_neg h0]
          exact dfsLoopF_cycles_mono deps fuel col ((node, idx+1) :: rest) cycles
    · rw [dif_neg h]
      exact dfsLoopF_cycles_mono deps fuel _ rest cycles

theorem dfsStart_cycles_mono (deps : List DependencyEdge)
    (acc : ColMap × List (List String)) (st : String) :
    ∃ tail, (dfsStart deps acc st).2 = acc.2 ++ tail := by
  unfold dfsStart
  by_cases h : colGet acc.1 st ≠ 0
  · rw [if_pos h]
    exact ⟨[], by simp⟩
  · rw [if_neg h]
    unfold dfsLoop
    exact dfsLoopF_cycles_mono deps _ _ _ _

theorem dfsStart_fold_cycles_mono (deps : List DependencyEdge) :
    ∀ (starts : List String) (acc : ColMap × List (List String)),
      ∃ tail, (starts.foldl (dfsStart deps) acc).2 = acc.2 ++ tail
  | [], acc => ⟨[], by simp⟩
  | st :: starts, acc => by
    rw [List.foldl_cons]
    obtain ⟨t1, ht1⟩ := dfsStart_cycles_mono deps acc st
    obtain ⟨t2, ht2⟩ := dfsStart_fold_cycles_mono deps starts (dfsStart deps acc st)
    exact ⟨t1 ++ t2, by rw [ht2, ht1, List.append_assoc]⟩

theorem dfsLoopF_correct (deps : List DependencyEdge) :
    ∀ (fuel : Nat) (col : ColMap) (stack : List (String × Nat))
      (cycles : List (List String)),
      DfsInv deps col stack → dfsFuel deps col stack ≤ fuel →
      (dfsLoopF deps fuel col stack cycles).2 = cycles →
      DfsDone deps col (dfsLoopF deps fuel col stack cycles).1
  | fuel, col, [], cycles, inv, _, _ => by
    have hres : (dfsLoopF deps fuel col [] cycles).1 = col := by
      cases fuel <;> rfl
    rw [hres]
    exact { no_grey := fun n hn => by
              have := (inv.grey_iff n).mp hn
              simp at this
            range := inv.range
            mono := fun n hn => hn
            black_acyclic := inv.black_acyclic
            black_closed := inv.black_closed }
  | 0, col, (node, idx) :: rest, cycles, inv, hf, _ => by
    exfalso
    unfold dfsFuel at hf
    simp only [stackWeight] at hf
    omega
  | fuel + 1, col, (node, idx) :: rest, cycles, inv, hf, hcy => by
    rw [dfsLoopF_succ_unfold] at hcy ⊢
    by_cases h : idx < (adjGet deps node).length
    · rw [dif_pos h] at hcy ⊢
      set v := (adjGet deps node).get ⟨idx, h⟩ with hv
      by_cases h1 : colGet col v = 1
      · rw [if_pos h1] at hcy
        exfalso
        obtain ⟨t, ht⟩ := dfsLoopF_cycles_mono deps fuel col
          ((node, idx+1) :: rest)
          (cycles ++ [v :: takeToNbr v ((node, idx+1) :: rest)])
        rw [hcy] at ht
        have hlen := congrArg List.length ht
        simp only [List.length_append, List.length_cons] at hlen
        omega
      · rw [if_neg h1] at hcy ⊢
        by_cases h0 : colGet col v = 0
        · -- white neighbour: push it grey
          rw [if_pos h0] at hcy ⊢
          have hvmem : v ∈ adjGet deps node := List.get_mem _ _ h
          have hvnotin : v ∉ ((node, idx) :: rest).map Prod.fst := by
            intro hmem
            have := (inv.grey_iff v).mpr hmem
            omega
          have inv2 : DfsInv deps (colSet col v 1)
              ((v, 0) :: (node, idx + 1) :: rest) := by
            refine { grey_iff := ?_, nodup := ?_, range := ?_,
                     scanned := ?_, black_acyclic := ?_, black_closed := ?_ }
            · intro n
              rw [colGet_colSet]
              by_cases hn : n = v
              · subst hn
                simp
              · rw [if_neg hn]
                rw [inv.grey_iff n]
                simp only [List.map_cons, List.mem_cons]
                tauto
            · simp only [List.map_cons]
              refine List.nodup_cons.mpr ⟨?_, ?_⟩
              · intro hmem
                apply hvnotin
                simpa using hmem
              · have hold := inv.nodup
                simpa using hold
            · intro n
              rw [colGet_colSet]
              split
              · omega
              · exact inv.range n
            · refine ⟨?_, ?_, ?_⟩
              · intro w hw
                simp at hw
              · intro w hw
                rw [List.take_succ] at hw
                rcases List.mem_append.mp hw with hw1 | hw2
                · rcases inv.scanned.1 w hw1 with h2 | ⟨_, hab⟩
                  · left
                    rw [colGet_colSet, if_neg (by intro he; subst he; omega)]
                    exact h2
                  · simp at hab
                · have hwv : w = v := by
                    rw [List.getElem?_eq_getElem h] at hw2
                    simpa [hv] using hw2
                  subst hwv
                  right
                  rw [colGet_colSet, if_pos rfl]
                  simp
              · refine ScannedOk_mono deps col (colSet col v 1)
                  (node :: []) (node :: [v]) rest ?_ ?_ ?_ inv.scanned.2
                · intro w h2
                  rw [colGet_colSet, if_neg (by intro he; subst he; omega)]
                  exact h2
                · intro w hg
                  left
                  rw [colGet_colSet, if_neg (by intro he; subst he; omega)]
                  exact hg
                · intro w hw
                  left
                  simp only [List.mem_cons] at hw ⊢
                  tauto
            · intro n hn
              rw [colGet_colSet] at hn
              by_cases hnv : n = v
              · rw [if_pos hnv] at hn
                omega
              · rw [if_neg hnv] at hn
                exact inv.black_acyclic n hn
            · intro u w hu hstep
              rw [colGet_colSet] at hu ⊢
              by_cases huv : u = v
              · rw [if_pos huv] at hu
                omega
              · rw [if_neg huv] at hu
                have := inv.black_closed u w hu hstep
                rw [if_neg (by intro he; subst he; omega)]
                exact this
          have hfuel2 : dfsFuel deps (colSet col v 1)
              ((v, 0) :: (node, idx + 1) :: rest) ≤ fuel := by
            have := dfsFuel_dec_push deps col node idx rest v h
              (adjGet_subset_targets hvmem) h0
            omega
          have hdone := dfsLoopF_correct deps fuel (colSet col v 1)
            ((v, 0) :: (node, idx + 1) :: rest) cycles inv2 hfuel2 hcy
          exact { no_grey := hdone.no_grey
                  range := hdone.range
                  mono := fun n hn => hdone.mono n (by
                    rw [colGet_colSet]
                    split
                    · omega
                    · exact hn)
                  black_acyclic := hdone.black_acyclic
                  black_closed := hdone.black_closed }
        · -- black neighbour: skip it
          rw [if_neg h0] at hcy ⊢
          have h2 : colGet col v = 2 := by
            have := inv.range v
            omega
          have inv2 : DfsInv deps col ((node, idx + 1) :: rest) := by
            refine { grey_iff := inv.grey_iff, nodup := inv.nodup,
                     range := inv.range, scanned := ?_,
                     black_acyclic := inv.black_acyclic,
                     black_closed := inv.black_closed }
            refine ⟨?_, inv.scanned.2⟩
            intro w hw
            rw [List.take_succ] at hw
            rcases List.mem_append.mp hw with hw1 | hw2
            · exact inv.scanned.1 w hw1
            · have hwv : w = v := by
                rw [List.getElem?_eq_getElem h] at hw2
                simpa [hv] using hw2
              subst hwv
              exact Or.inl h2
          have hfuel2 : dfsFuel deps col ((node, idx + 1) :: rest) ≤ fuel := by
            have := dfsFuel_dec_scan deps col node idx rest h
            omega
          exact dfsLoopF_correct deps fuel col ((node, idx + 1) :: rest)
            cycles inv2 hfuel2 hcy
    · -- neighbours exhausted: pop and blacken
      rw [dif_neg h] at hcy ⊢
      have hgrey : colGet col node = 1 :=
        (inv.grey_iff node).mpr (by simp)
      have hnodup := inv.nodup
      simp only [List.map_cons, List.nodup_cons] at hnodup
      have hallblack : ∀ w ∈ adjGet deps node, colGet col w = 2 := by
        intro w hw
        have htake : (adjGet deps node).take idx = adjGet deps node :=
          List.take_of_length_le (by omega)
        rcases inv.scanned.1 w (by rw [htake]; exact hw) with hb | ⟨_, hab⟩
        · exact hb
        · simp at hab
      have inv2 : DfsInv deps (colSet col node 2) rest := by
        refine { grey_iff := ?_, nodup := hnodup.2, range := ?_,
                 scanned := ?_, black_acyclic := ?_, black_closed := ?_ }
        · intro n
          rw [colGet_colSet]
          by_cases hn : n = node
          · subst hn
            rw [if_pos rfl]
            constructor
            · intro h12
              simp at h12
            · intro hmem
              exact absurd hmem hnodup.1
          · rw [if_neg hn]
            rw [inv.grey_iff n]
            simp only [List.map_cons, List.mem_cons]
            tauto
        · intro n
          rw [colGet_colSet]
          split
          · omega
          · exact inv.range n
        · refine ScannedOk_mono deps col (colSet col node 2)
            [node] [] rest ?_ ?_ ?_ inv.scanned.2
          · intro w h2
            rw [colGet_colSet]
            split
            · rfl
            · exact h2
          · intro w hg
            rw [colGet_colSet]
            by_cases hwn : w = node
            · rw [if_pos hwn]
              right
              rfl
            · rw [if_neg hwn]
              exact Or.inl hg
          · intro w hw
            simp only [List.mem_cons] at hw
            rcases hw with hw | hw
            · subst hw
              right
              rw [colGet_colSet, if_pos rfl]
            · simp at hw
        · intro m hm
          rw [colGet_colSet] at hm
          by_cases hmn : m = node
          · subst hmn
            intro hcyc
            obtain ⟨c, hstep, hpath⟩ := transGen_head_decomp _ hcyc
            have hcb : colGet col c = 2 := hallblack c hstep
            have := black_closed_reflTransGen deps col inv.black_closed hcb hpath
            omega
          · rw [if_neg hmn] at hm
            exact inv.black_acyclic m hm
        · intro u w hu hstep
          rw [colGet_colSet] at hu ⊢
          by_cases huv : u = node
          · subst huv
            have := hallblack w hstep
            split
            · rfl
            · exact this
          · rw [if_neg huv] at hu
            have := inv.black_closed u w hu hstep
            split
            · rfl
            · exact this
      have hfuel2 : dfsFuel deps (colSet col node 2) rest ≤ fuel := by
        have := dfsFuel_dec_pop deps col node idx rest h
        omega
      have hdone := dfsLoopF_correct deps fuel (colSet col node 2) rest
        cycles inv2 hfuel2 hcy
      exact { no_grey := hdone.no_grey
              range := hdone.range
              mono := fun n hn => hdone.mono n (by
                rw [colGet_colSet]
                split
                · omega
                · exact hn)
              black_acyclic := hdone.black_acyclic
              black_closed := hdone.black_closed }

theorem dfsStart_fold_correct (deps : List DependencyEdge) :
    ∀ (starts : List String) (col : ColMap) (cycles : List (List String)),
      OuterInv deps col →
      (starts.foldl (dfsStart deps) (col, cycles)).2 = cycles →
      OuterInv deps (starts.foldl (dfsStart deps) (col, cycles)).1 ∧
      (∀ n, colGet col n ≠ 0 →
        colGet (starts.foldl (dfsStart deps) (col, cycles)).1 n ≠ 0) ∧
      (∀ n ∈ starts, colGet (starts.foldl (dfsStart deps) (col, cycles)).1 n ≠ 0)
  | [], col, cycles, hout, _ => ⟨hout, fun n hn => hn, by simp⟩
  | st :: starts, col, cycles, hout, hcy => by
    rw [List.foldl_cons] at hcy ⊢
    by_cases hst : colGet col st ≠ 0
    · have hds : dfsStart deps (col, cycles) st = (col, cycles) := by
        unfold dfsStart
        rw [if_pos hst]
      rw [hds] at hcy ⊢
      obtain ⟨h1, h2, h3⟩ := dfsStart_fold_correct deps starts col cycles hout hcy
      refine ⟨h1, h2, ?_⟩
      intro n hn
      rcases List.mem_cons.mp hn with hn | hn
      · subst hn
        exact h2 n hst
      · exact h3 n hn
    · rw [not_not] at hst
      have hds : dfsStart deps (col, cycles) st =
          dfsLoopF deps (dfsFuel deps (colSet col st 1) [(st, 0)])
            (colSet col st 1) [(st, 0)] cycles := by
        unfold dfsStart dfsLoop
        rw [if_neg (by rw [not_not]; exact hst)]
      rw [hds] at hcy ⊢
      set r := dfsLoopF deps (dfsFuel deps (colSet col st 1) [(st, 0)])
        (colSet col st 1) [(st, 0)] cycles with hr
      obtain ⟨t1, ht1⟩ := dfsLoopF_cycles_mono deps
        (dfsFuel deps (colSet col st 1) [(st, 0)])
        (colSet col st 1) [(st, 0)] cycles
      obtain ⟨t2, ht2⟩ := dfsStart_fold_cycles_mono deps starts r
      have hcomb : cycles = (cycles ++ t1) ++ t2 := by
        rw [← ht1, ← hr, ← ht2, hcy]
      have hlen := congrArg List.length hcomb
      simp only [List.length_append] at hlen
      have ht1e : t1 = [] := List.length_eq_zero.mp (by omega)
      have hr2 : r.2 = cycles := by
        rw [hr, ht1, ht1e, List.append_nil]
      have hinv : DfsInv deps (colSet col st 1) [(st, 0)] := by
        refine { grey_iff := ?_, nodup := by simp, range := ?_,
                 scanned := ⟨?_, trivial⟩, black_acyclic := ?_,
                 black_closed := ?_ }
        · intro n
          rw [colGet_colSet]
          by_cases hn : n = st
          · subst hn
            simp
          · rw [if_neg hn]
            constructor
            · intro hg
              exact absurd hg (hout.no_grey n)
            · intro hmem
              simp only [List.map_cons, List.mem_cons] at hmem
              rcases hmem with hmem | hmem
              · exact absurd hmem hn
              · simp at hmem
        · intro n
          rw [colGet_colSet]
          split
          · omega
          · exact hout.range n
        · intro w hw
          simp at hw
        · intro n hn
          rw [colGet_colSet] at hn
          by_cases hns : n = st
          · rw [if_pos hns] at hn
            omega
          · rw [if_neg hns] at hn
            exact hout.black_acyclic n hn
        · intro u w hu hstep
          rw [colGet_colSet] at hu ⊢
          by_cases hus : u = st
          · rw [if_pos hus] at hu
            omega
          · rw [if_neg hus] at hu
            have h2 := hout.black_closed u w hu hstep
            rw [if_neg (by intro he; subst he; omega)]
            exact h2
      have hdone : DfsDone deps (colSet col st 1) r.1 := by
        rw [hr]
        exact dfsLoopF_correct deps _ (colSet col st 1) [(st, 0)] cycles
          hinv (Nat.le_refl _) hr2
      have hout2 : OuterInv deps r.1 :=
        { no_grey := hdone.no_grey, range := hdone.range,
          black_acyclic := hdone.black_acyclic,
          black_closed := hdone.black_closed }
      have hfold2 : (starts.foldl (dfsStart deps) (r.1, r.2)).2 = r.2 := by
        show (starts.foldl (dfsStart deps) r).2 = r.2
        rw [hr2]
        exact hcy
      obtain ⟨h1, h2, h3⟩ :=
        dfsStart_fold_correct deps starts r.1 r.2 hout2 hfold2
      refine ⟨h1, ?_, ?_⟩
      · intro n hn
        refine h2 n (hdone.mono n ?_)
        rw [colGet_colSet]
        split
        · omega
        · exact hn
      · intro n hn
        rcases List.mem_cons.mp hn with hn | hn
        · subst hn
          refine h2 n (hdone.mono n ?_)
          rw [colGet_colSet, if_pos rfl]
          omega
        · exact h3 n hn

theorem criticalStep_iff_EdgeStep (s : OrgState) (u v : String) :
    criticalStep s u v ↔ EdgeStep s.dependencies u v := by
  unfold criticalStep EdgeStep adjGet
  rw [mem_sortStr]
  simp only [List.mem_map, List.mem_filter, Bool.and_eq_true,
    decide_eq_true_eq]
  constructor
  · rintro ⟨e, he, hc, hf, ht⟩
    exact ⟨e, ⟨he, hc, hf⟩, ht⟩
  · rintro ⟨e, ⟨he, hc, hf⟩, ht⟩
    exact ⟨e, he, hc, hf, ht⟩

theorem check_no_critical_cycles_sem (s : OrgState)
    (h : check_no_critical_cycles s = .ok ())
    (hdep : check_dependency_refs s = .ok ()) : InvNoCriticalCycle s := by
  have hdet : detect_critical_cycles s = [] := by
    unfold check_no_critical_cycles at h
    by_cases hc : (detect_critical_cycles s).isEmpty = true
    · exact List.isEmpty_iff.mp hc
    · rw [if_neg hc] at h
      exact absurd h (by simp)
  unfold detect_critical_cycles at hdet
  have hout0 : OuterInv s.dependencies [] :=
    { no_grey := fun n => by simp [colGet]
      range := fun n => by simp [colGet]
      black_acyclic := fun n h2 => by simp [colGet] at h2
      black_closed := fun u v h2 _ => by simp [colGet] at h2 }
  obtain ⟨hOI, hmono, hstarts⟩ := dfsStart_fold_correct s.dependencies
    (s.roles.map Prod.fst) [] [] hout0 hdet
  intro x hcyc
  obtain ⟨c, hstep1, hpath⟩ := transGen_head_decomp _ hcyc
  obtain ⟨e, he, hcrit, hfrom, hto⟩ := hstep1
  have hx : x ∈ s.roles.map Prod.fst := by
    have hboth := check_dependency_refs_sem s hdep e he
    rw [← hfrom]
    exact hboth.1
  have hnz := hstarts x hx
  have hng := hOI.no_grey x
  have hr := hOI.range x
  have hb : colGet ((s.roles.map Prod.fst).foldl (dfsStart s.dependencies)
      ([], [])).1 x = 2 := by omega
  have hE : Relation.TransGen (EdgeStep s.dependencies) x x := by
    refine Relation.TransGen.mono ?_ hcyc
    intro a b hab
    exact (criticalStep_iff_EdgeStep s a b).mp hab
  exact hOI.black_acyclic x hb hE

/-- C2: every state reachable from a fresh engine through successfully
applied events satisfies all seven structural invariants: dependency
endpoints exist, no produced output is orphaned, role IDs are unique, an
active role exists whenever any role does, responsibilities are
non-empty, no all-critical directed cycle exists, and every role ID is
non-empty over [a-zA-Z0-9_-]. -/
theorem C2_invariant_closure (s : OrgState) (h : ReachableState s) :
    InvDependencyRefs s ∧ InvOrphanedOutputs s ∧ InvUniqueIds s ∧
    InvActiveRole s ∧ InvNonemptyResponsibilities s ∧
    InvNoCriticalCycle s ∧ InvRoleIdFormat s := by
  have hv := reachable_validate s h
  obtain ⟨h7, h1, h2, h3, h4, h5, h6⟩ := validate_parts s hv
  exact ⟨check_dependency_refs_sem s h1, check_orphaned_outputs_sem s h2,
    check_duplicate_role_ids_sem s h3, check_at_least_one_active_role_sem s h4,
    check_no_empty_responsibilities_sem s h5,
    check_no_critical_cycles_sem s h6 h1, check_role_id_format_sem s h7⟩

/-- C2 witness: the freshly initialized state is reachable via the empty
event list and satisfies the invariants. -/
theorem C2_invariant_closure_witness :
    InvDependencyRefs create_initial_state ∧
    InvUniqueIds create_initial_state ∧
    InvNoCriticalCycle create_initial_state :=
  ⟨(C2_invariant_closure create_initial_state
      ⟨[], OrgEngine.initial, rfl, rfl⟩).1,
   (C2_invariant_closure create_initial_state
      ⟨[], OrgEngine.initial, rfl, rfl⟩).2.2.1,
   (C2_invariant_closure create_initial_state
      ⟨[], OrgEngine.initial, rfl, rfl⟩).2.2.2.2.2.1⟩
